import Mathlib

/-
  Shallow embedding of the force-directed relaxation engine in
  src/lib/ForceRelaxationSolver.ts, together with theorems settling the
  frozen claims about it.  JS numbers are modelled by the real numbers;
  the machine integers that index entities are modelled by Int, with -1 as
  the unresolved sentinel exactly as in the source.  Every definition is a
  direct transcription of the corresponding source function unless its doc
  comment says otherwise.
-/

namespace FastForce

open scoped Classical

/-- Numeric epsilon used throughout the solver (the constant EPS = 1e-12). -/
noncomputable def EPS : ℝ := 1 / 10 ^ 12

/-- Two pi, the constant TAU of the source. -/
noncomputable def TAU : ℝ := Real.pi * 2

/-- The function clamp01 of the source: clamp a real to the unit interval. -/
noncomputable def clamp01 (t : ℝ) : ℝ := if t < 0 then 0 else if t > 1 then 1 else t

/-- The function safeExp of the source: exponential with the argument clamped
to the interval from -50 to 50. -/
noncomputable def safeExp (x : ℝ) : ℝ :=
  if x > 50 then Real.exp 50 else if x < -50 then Real.exp (-50) else Real.exp x

/-- Truncation toward zero, the rounding used by the JS remainder operator. -/
noncomputable def jsTrunc (r : ℝ) : ℤ := if 0 ≤ r then ⌊r⌋ else ⌈r⌉

/-- The JS remainder operator on (real-modelled) numbers:
x % y = x - y * trunc (x / y). -/
noncomputable def jsFmod (x y : ℝ) : ℝ := x - y * (jsTrunc (x / y) : ℝ)

/-- The function wrapToPi of the source: a = (a + pi) % TAU, add TAU when the
remainder is negative, then subtract pi. -/
noncomputable def wrapToPi (a : ℝ) : ℝ :=
  let a1 := jsFmod (a + Real.pi) TAU
  let a2 := if a1 < 0 then a1 + TAU else a1
  a2 - Real.pi

/-- Mathematical nonnegative remainder, used by the claim about wrapToPi. -/
noncomputable def nnmod (x y : ℝ) : ℝ := x - y * (⌊x / y⌋ : ℝ)

/-- The formula that the specification gives for wrapToPi, written with the
mathematical nonnegative remainder, exactly as the claim words it. -/
noncomputable def wrapToPiSpecFormula (a : ℝ) : ℝ :=
  nnmod (nnmod (a + Real.pi) TAU + TAU) TAU - Real.pi

/-- Math.atan2 on reals, via the complex argument: atan2 y x is the argument
of the complex number with real part x and imaginary part y, in the interval
from -pi (exclusive) to pi (inclusive), with atan2 0 0 = 0 as in JS. -/
noncomputable def atan2 (y x : ℝ) : ℝ := Complex.arg { re := x, im := y }

/-- Result record of closestPointsOnSegments, as in the source. -/
structure ClosestSegSegResult where
  s : ℝ
  t : ℝ
  c1x : ℝ
  c1y : ℝ
  c2x : ℝ
  c2y : ℝ
  distSq : ℝ

/-- The function closestPointsOnSegments of the source (Ericson formulation):
closest points between the segments p1-q1 and p2-q2. -/
noncomputable def closestPointsOnSegments (p1x p1y q1x q1y p2x p2y q2x q2y : ℝ) :
    ClosestSegSegResult :=
  let d1x := q1x - p1x
  let d1y := q1y - p1y
  let d2x := q2x - p2x
  let d2y := q2y - p2y
  let rx := p1x - p2x
  let ry := p1y - p2y
  let a := d1x * d1x + d1y * d1y
  let e := d2x * d2x + d2y * d2y
  let f := d2x * rx + d2y * ry
  if a ≤ EPS ∧ e ≤ EPS then
    let dx := p1x - p2x
    let dy := p1y - p2y
    { s := 0, t := 0, c1x := p1x, c1y := p1y, c2x := p2x, c2y := p2y,
      distSq := dx * dx + dy * dy }
  else
    let st : ℝ × ℝ :=
      if a ≤ EPS then
        (0, if e ≤ EPS then 0 else clamp01 (f / e))
      else
        let c := d1x * rx + d1y * ry
        if e ≤ EPS then
          (clamp01 (-c / a), 0)
        else
          let b := d1x * d2x + d1y * d2y
          let denom := a * e - b * b
          let s0 := if |denom| > EPS then clamp01 ((b * f - c * e) / denom) else 0
          let tnom := b * s0 + f
          if tnom < 0 then (clamp01 (-c / a), 0)
          else if tnom > e then (clamp01 ((b - c) / a), 1)
          else (s0, tnom / e)
    let c1x := p1x + d1x * st.1
    let c1y := p1y + d1y * st.1
    let c2x := p2x + d2x * st.2
    let c2y := p2y + d2y * st.2
    let dx := c1x - c2x
    let dy := c1y - c2y
    { s := st.1, t := st.2, c1x := c1x, c1y := c1y, c2x := c2x, c2y := c2y,
      distSq := dx * dx + dy * dy }

/-- Result record of closestPointOnSegment, as in the source. -/
structure ClosestPtSegResult where
  t : ℝ
  cx : ℝ
  cy : ℝ
  dx : ℝ
  dy : ℝ
  distSq : ℝ

/-- The function closestPointOnSegment of the source: closest point on the
segment a-b to the point p. -/
noncomputable def closestPointOnSegment (px py ax ay bx by_ : ℝ) : ClosestPtSegResult :=
  let vx := bx - ax
  let vy := by_ - ay
  let wx := px - ax
  let wy := py - ay
  let vv := vx * vx + vy * vy
  let t := if vv > EPS then clamp01 ((wx * vx + wy * vy) / vv) else 0
  let cx := ax + t * vx
  let cy := ay + t * vy
  let dx := px - cx
  let dy := py - cy
  { t := t, cx := cx, cy := cy, dx := dx, dy := dy, distSq := dx * dx + dy * dy }

/-- The constant CELL_OFFSET of the source, 2 to the 25. -/
def CELL_OFFSET : ℤ := 33554432

/-- The constant CELL_BASE of the source, 2 to the 26. -/
def CELL_BASE : ℤ := 67108864

/-- The grid cell key of the source method named cellKey with a leading
underscore: key = (cx + CELL_OFFSET) * CELL_BASE + (cy + CELL_OFFSET). -/
def cellKey (cx cy : ℤ) : ℤ := (cx + CELL_OFFSET) * CELL_BASE + (cy + CELL_OFFSET)

/-- Lookup of an id in a list with last-occurrence-wins semantics, returning
-1 when absent.  This models the JS Map built by iterating indices upward and
overwriting: get returns the greatest index holding the id. -/
def lastIndexOf : List String → String → ℤ
  | [], _ => -1
  | x :: rest, id =>
    let r := lastIndexOf rest id
    if 0 ≤ r then r + 1 else if x = id then 0 else -1

/-- The 32-bit layer bitmask built at initialization: for each of the point
layer ids, look the id up in layerIds and or in the bit 1 shifted left by the
found index (JS shifts reduce the shift amount mod 32); unknown ids are
skipped.  Bitwise or is commutative and associative, so folding from the
right yields the same value as the ascending source loop. -/
def buildMask (layerIds : List String) : List String → ℕ
  | [] => 0
  | lid :: rest =>
    let r := buildMask layerIds rest
    let li := lastIndexOf layerIds lid
    if 0 ≤ li then r ||| 2 ^ (li.toNat % 32) else r

/-- The bitmask branch of the source method pointOnLayer (with a leading
underscore), composed with the mask construction of initialization: false
when the segment layer id is unknown, otherwise test the bit of the segment
layer index against the point mask. -/
def decisionBitmask (layerIds pls : List String) (segLayerId : String) : Bool :=
  let segIdx := lastIndexOf layerIds segLayerId
  if segIdx < 0 then false
  else decide (buildMask layerIds pls &&& 2 ^ (segIdx.toNat % 32) ≠ 0)

/-- The set branch of the source method pointOnLayer (with a leading
underscore): false when the segment layer id is unknown, otherwise membership
of the segment layer id in the point layer id set. -/
def decisionSet (layerIds pls : List String) (segLayerId : String) : Bool :=
  let segIdx := lastIndexOf layerIds segLayerId
  if segIdx < 0 then false
  else decide (segLayerId ∈ pls)

/-- A repulsion interaction record, from src/lib/types (unnamed part). -/
structure RepulsionInteraction where
  strength : ℝ
  exponentialDecay : ℝ
  overlapMultiplier : ℝ
  minSeparation : ℝ

/-- A boundary keep-in interaction record, from src/lib/types. -/
structure BoundaryInteraction where
  strength : ℝ
  exponentialDecay : ℝ
  overlapMultiplier : ℝ

/-- A fixed-length correction interaction record, from src/lib/types. -/
structure LengthCorrectionInteraction where
  strength : ℝ
  exponentialDecay : ℝ

/-- A fixed-orientation correction interaction record, from src/lib/types. -/
structure OrientationCorrectionInteraction where
  strength : ℝ
  exponentialDecay : ℝ

/-- The interactions record of ForceRelaxationProblem. -/
structure Interactions where
  segSegRepel : RepulsionInteraction
  pointSegRepel : RepulsionInteraction
  boundsKeepIn : BoundaryInteraction
  fixedLengthCorrection : LengthCorrectionInteraction
  fixedOrientationCorrection : OrientationCorrectionInteraction

/-- The bounds record of ForceRelaxationProblem. -/
structure Bounds where
  minX : ℝ
  minY : ℝ
  maxX : ℝ
  maxY : ℝ

/-- The solve schedule of ForceRelaxationProblem; optional fields are Option. -/
structure SolveSchedule where
  maxSteps : ℕ
  stepSize : ℝ
  epsilonMove : ℝ
  maxMovePerStep : Option ℝ
  friction : Option ℝ
  relaxationSteps : Option ℕ

/-- A point entity, from src/lib/types; position is split into x and y. -/
structure PointEntity where
  pointId : String
  x : ℝ
  y : ℝ
  movable : Bool
  radius : ℝ
  layerIds : List String

/-- A segment entity, from src/lib/types (the optional color is ignored: the
engine never reads it). -/
structure SegmentEntity where
  segmentId : String
  startPointId : String
  endPointId : String
  width : ℝ
  layerId : String
  fixedLength : Bool
  fixedOrientation : Bool

/-- A ForceRelaxationProblem. -/
structure Problem where
  bounds : Bounds
  boundaryPadding : ℝ
  layerIds : List String
  points : List PointEntity
  segments : List SegmentEntity
  interactions : Interactions
  solve : SolveSchedule

/-- Default point entity used for out-of-range list reads; the source never
reads out of range, all accesses being guarded by the stored counts. -/
def defaultPoint : PointEntity :=
  { pointId := "", x := 0, y := 0, movable := false, radius := 0, layerIds := [] }

/-- Default segment entity used for out-of-range list reads. -/
def defaultSegment : SegmentEntity :=
  { segmentId := "", startPointId := "", endPointId := "", width := 0,
    layerId := "", fixedLength := false, fixedOrientation := false }

/-- The cached solver state after lazy initialization: the parallel typed
arrays of the class are modelled as functions from the index, the external
point objects as the extX and extY stores, and the bookkeeping of the base
class (solved, iterations, MAX_ITERATIONS) as plain fields. -/
structure SolverState where
  prob : Problem
  n : ℕ
  m : ℕ
  px : ℕ → ℝ
  py : ℕ → ℝ
  pr : ℕ → ℝ
  movable : ℕ → Bool
  extX : ℕ → ℝ
  extY : ℕ → ℝ
  segA : ℕ → ℤ
  segB : ℕ → ℤ
  segHalfWidth : ℕ → ℝ
  segFixedLen : ℕ → Bool
  segFixedOri : ℕ → Bool
  restLen : ℕ → ℝ
  restAngle : ℕ → ℝ
  segLayerIdx : ℕ → ℤ
  segLayerId : ℕ → String
  useLayerBitmask : Bool
  pointLayerMask32 : ℕ → ℕ
  pointLayerSets : ℕ → List String
  vx : ℕ → ℝ
  vy : ℕ → ℝ
  gridOriginX : ℝ
  gridOriginY : ℝ
  invCellSize : ℝ
  globalInfluence : ℝ
  solved : Bool
  iterations : ℕ
  maxIterations : ℕ

/-- The source method repulsionMagnitude (with a leading underscore): base
strength, overlap multiplier when the gap is negative, exponential decay of
the gap when the decay is nonzero. -/
noncomputable def repulsionMagnitude (gap strength decay overlapMultiplier : ℝ) : ℝ :=
  let mult := if gap < 0 then overlapMultiplier else 1
  if decay = 0 then strength * mult
  else strength * mult * safeExp (-decay * gap)

/-- The source method pointOnLayer (with a leading underscore): false for an
unknown segment layer, else the bitmask test or the set test depending on the
stored mode. -/
def pointOnLayer (s : SolverState) (pi_ : ℕ) (segIdx : ℤ) (segLayerId : String) : Bool :=
  if segIdx < 0 then false
  else if s.useLayerBitmask then
    decide (s.pointLayerMask32 pi_ &&& 2 ^ (segIdx.toNat % 32) ≠ 0)
  else decide (segLayerId ∈ s.pointLayerSets pi_)

/-- The per-segment cell rectangle computed by the source method
rebuildSegmentGrid (with a leading underscore): the empty range (0, -1, 0, -1)
for a segment with an unresolved endpoint, otherwise the floors of the
influence-expanded axis-aligned bounding box in cell units.  Returned as
(cminx, cmaxx, cminy, cmaxy). -/
noncomputable def segCellRange (s : SolverState) (i : ℕ) : ℤ × ℤ × ℤ × ℤ :=
  if s.segA i < 0 ∨ s.segB i < 0 then (0, -1, 0, -1)
  else
    let ax := s.px (s.segA i).toNat
    let ay := s.py (s.segA i).toNat
    let bx := s.px (s.segB i).toNat
    let by_ := s.py (s.segB i).toNat
    let minx := (if ax < bx then ax else bx) - s.globalInfluence
    let maxx := (if ax > bx then ax else bx) + s.globalInfluence
    let miny := (if ay < by_ then ay else by_) - s.globalInfluence
    let maxy := (if ay > by_ then ay else by_) + s.globalInfluence
    (⌊(minx - s.gridOriginX) * s.invCellSize⌋,
     ⌊(maxx - s.gridOriginX) * s.invCellSize⌋,
     ⌊(miny - s.gridOriginY) * s.invCellSize⌋,
     ⌊(maxy - s.gridOriginY) * s.invCellSize⌋)

/-- Nonemptiness of the cell rectangle of segment i, the negation of the
guard that skips a segment whose stored range is empty. -/
noncomputable def rangeNonempty (s : SolverState) (i : ℕ) : Prop :=
  (segCellRange s i).1 ≤ (segCellRange s i).2.1 ∧
  (segCellRange s i).2.2.1 ≤ (segCellRange s i).2.2.2

/-- Candidacy of segment j for segment i in the broadphase: j is produced by
the grid query of i exactly when some cell is covered by both cell
rectangles, that is when the rectangles intersect. -/
noncomputable def ssCandidate (s : SolverState) (i j : ℕ) : Prop :=
  max (segCellRange s i).1 (segCellRange s j).1 ≤
    min (segCellRange s i).2.1 (segCellRange s j).2.1 ∧
  max (segCellRange s i).2.2.1 (segCellRange s j).2.2.1 ≤
    min (segCellRange s i).2.2.2 (segCellRange s j).2.2.2

/-- Endpoint sharing between segments i and j, compared on the stored
endpoint indices as in the source. -/
def ssShareEndpoint (s : SolverState) (i j : ℕ) : Prop :=
  s.segA i = s.segA j ∨ s.segA i = s.segB j ∨ s.segB i = s.segA j ∨ s.segB i = s.segB j

/-- The stateless guard sequence of the segment-segment kernel for the pair
(i, j): the outer-loop guards on i (resolved endpoints, known layer, at least
one movable endpoint, nonempty cell range), then the inner-loop guards (j
after i, grid candidacy, resolved endpoints of j, equal layer, no shared
endpoint, some movable endpoint among the four).  The one source guard NOT
modelled here is the visited-mark test: the segVisitedMark array is
allocated at initialization and never cleared, so it carries state across
queries, kernels and steps.  The source computes the force of a pair exactly
when this predicate holds AND the stale mark of j differs from i plus one at
the first encounter (see ssPairActiveMarked); this predicate is therefore
necessary for a contribution but sufficient only together with the mark
condition. -/
noncomputable def ssPairActive (s : SolverState) (i j : ℕ) : Prop :=
  (0 ≤ s.segA i ∧ 0 ≤ s.segB i) ∧
  0 ≤ s.segLayerIdx i ∧
  (s.movable (s.segA i).toNat = true ∨ s.movable (s.segB i).toNat = true) ∧
  rangeNonempty s i ∧
  i < j ∧
  ssCandidate s i j ∧
  (0 ≤ s.segA j ∧ 0 ≤ s.segB j) ∧
  s.segLayerIdx j = s.segLayerIdx i ∧
  ¬ssShareEndpoint s i j ∧
  (s.movable (s.segA i).toNat = true ∨ s.movable (s.segB i).toNat = true ∨
   s.movable (s.segA j).toNat = true ∨ s.movable (s.segB j).toNat = true)

/-- The complete guard sequence of the segment-segment kernel for the pair
(i, j), including the visited-mark test of the source: marks is the content
of the segVisitedMark array at the moment the query of segment i first
encounters j.  The array is allocated once at initialization and never
cleared, so this state carries marks left by earlier queries of the same
kernel, by the point-segment kernel (whose queries use the point index plus
one) and by all earlier steps; a stale mark equal to i plus one skips the
pair before the remaining inner guards run. -/
noncomputable def ssPairActiveMarked (s : SolverState) (marks : ℕ → ℤ) (i j : ℕ) : Prop :=
  ssPairActive s i j ∧ marks j ≠ (i : ℤ) + 1

/-- The force the segment-segment kernel adds to the slot of point p for the
pair (i, j), assuming the guards passed: closest points, gap against the
required separation, magnitude, deterministic direction tie-breaks, and the
distribution to the four endpoints weighted by the closest-point parameters.
A zero magnitude contributes nothing (the source also skips a non-finite
magnitude; in the real-number model every value is finite). -/
noncomputable def ssPairForce (s : SolverState) (i j p : ℕ) : ℝ × ℝ :=
  let a0 := (s.segA i).toNat
  let a1 := (s.segB i).toNat
  let b0 := (s.segA j).toNat
  let b1 := (s.segB j).toNat
  let p1x := s.px a0
  let p1y := s.py a0
  let q1x := s.px a1
  let q1y := s.py a1
  let p2x := s.px b0
  let p2y := s.py b0
  let q2x := s.px b1
  let q2y := s.py b1
  let res := closestPointsOnSegments p1x p1y q1x q1y p2x p2y q2x q2y
  let dist := Real.sqrt res.distSq
  let required := s.segHalfWidth i + s.segHalfWidth j +
    s.prob.interactions.segSegRepel.minSeparation
  let gap := dist - required
  let mag := repulsionMagnitude gap s.prob.interactions.segSegRepel.strength
    s.prob.interactions.segSegRepel.exponentialDecay
    s.prob.interactions.segSegRepel.overlapMultiplier
  if mag = 0 then (0, 0)
  else
    let d : ℝ × ℝ :=
      if res.distSq ≤ EPS then
        let m1x := (p1x + q1x) * 0.5
        let m1y := (p1y + q1y) * 0.5
        let m2x := (p2x + q2x) * 0.5
        let m2y := (p2y + q2y) * 0.5
        let dmx := m1x - m2x
        let dmy := m1y - m2y
        if dmx * dmx + dmy * dmy ≤ EPS then
          let sx := q1x - p1x
          let sy := q1y - p1y
          if (-sy) * (-sy) + sx * sx ≤ EPS then (1, 0) else (-sy, sx)
        else (dmx, dmy)
      else (res.c1x - res.c2x, res.c1y - res.c2y)
    let invd := 1 / Real.sqrt (d.1 * d.1 + d.2 * d.2 + EPS)
    let ux := d.1 * invd
    let uy := d.2 * invd
    let fx := ux * mag
    let fy := uy * mag
    let wA0 := 1 - res.s
    let wA1 := res.s
    let wB0 := 1 - res.t
    let wB1 := res.t
    ((if p = a0 then fx * wA0 else 0) + (if p = a1 then fx * wA1 else 0)
      - (if p = b0 then fx * wB0 else 0) - (if p = b1 then fx * wB1 else 0),
     (if p = a0 then fy * wA0 else 0) + (if p = a1 then fy * wA1 else 0)
      - (if p = b0 then fy * wB0 else 0) - (if p = b1 then fy * wB1 else 0))

/-- Guarded contribution of the ordered pair (i, j) to point p in the
segment-segment kernel. -/
noncomputable def ssPairTerm (s : SolverState) (i j p : ℕ) : ℝ × ℝ :=
  if ssPairActive s i j then ssPairForce s i j p else (0, 0)

/-- Mark-free idealization of the total segment-segment force on point p:
every pair passing the stateless guards contributes exactly once.  Within
one query the visited marks deduplicate candidates seen from several cells,
but because the mark array is never cleared the source may also skip
guard-passing pairs whose stale mark collides (ssPairActiveMarked with the
historical mark state): the pairs the source computes are a subset of the
pairs summed here, each at most once.  Every theorem proved about this sum
asserts only that guarded contributions vanish, which holds for every
subset; real addition is commutative, so the accumulation order of the
source is immaterial. -/
noncomputable def segSegF (s : SolverState) (p : ℕ) : ℝ × ℝ :=
  ∑ i ∈ Finset.range s.m, ∑ j ∈ Finset.range s.m, ssPairTerm s i j p

/-- Candidacy of segment si for point pi in the point-segment kernel: si is
produced by the 3 by 3 neighborhood query around the cell of the point
exactly when the cell rectangle of si meets that neighborhood. -/
noncomputable def psCandidate (s : SolverState) (pi_ si : ℕ) : Prop :=
  let cx := ⌊(s.px pi_ - s.gridOriginX) * s.invCellSize⌋
  let cy := ⌊(s.py pi_ - s.gridOriginY) * s.invCellSize⌋
  (segCellRange s si).1 ≤ cx + 1 ∧ cx - 1 ≤ (segCellRange s si).2.1 ∧
  (segCellRange s si).2.2.1 ≤ cy + 1 ∧ cy - 1 ≤ (segCellRange s si).2.2.2

/-- The stateless guard sequence of the point-segment kernel for point pi
and segment si: candidacy, resolved endpoints, the point not an endpoint of
the segment, layer compatibility, and some movable participant.  As in the
segment-segment kernel, the visited-mark test of the source is not modelled
here: the never-cleared mark array can block the query of point pi on a
stale mark equal to the point index plus one, even one left by the
segment-segment kernel of the same step (see psActiveMarked). -/
noncomputable def psActive (s : SolverState) (pi_ si : ℕ) : Prop :=
  psCandidate s pi_ si ∧
  (0 ≤ s.segA si ∧ 0 ≤ s.segB si) ∧
  ((pi_ : ℤ) ≠ s.segA si ∧ (pi_ : ℤ) ≠ s.segB si) ∧
  pointOnLayer s pi_ (s.segLayerIdx si) (s.segLayerId si) = true ∧
  (s.movable pi_ = true ∨ s.movable (s.segA si).toNat = true ∨
   s.movable (s.segB si).toNat = true)

/-- The complete guard sequence of the point-segment kernel for point pi and
segment si, including the visited-mark test of the source: marks is the
content of the segVisitedMark array at the moment the query of point pi
first encounters si.  Stale marks persist from earlier queries of both
kernels and from earlier steps; a stale mark equal to the point index plus
one skips the pair. -/
noncomputable def psActiveMarked (s : SolverState) (marks : ℕ → ℤ) (pi_ si : ℕ) : Prop :=
  psActive s pi_ si ∧ marks si ≠ (pi_ : ℤ) + 1

/-- The force the point-segment kernel adds to the slot of point p for the
point pi against segment si, assuming the guards passed. -/
noncomputable def psForce (s : SolverState) (pi_ si p : ℕ) : ℝ × ℝ :=
  let a := (s.segA si).toNat
  let b := (s.segB si).toNat
  let px := s.px pi_
  let py := s.py pi_
  let ax := s.px a
  let ay := s.py a
  let bx := s.px b
  let by_ := s.py b
  let res := closestPointOnSegment px py ax ay bx by_
  let dist := Real.sqrt res.distSq
  let required := s.pr pi_ + s.segHalfWidth si +
    s.prob.interactions.pointSegRepel.minSeparation
  let gap := dist - required
  let mag := repulsionMagnitude gap s.prob.interactions.pointSegRepel.strength
    s.prob.interactions.pointSegRepel.exponentialDecay
    s.prob.interactions.pointSegRepel.overlapMultiplier
  if mag = 0 then (0, 0)
  else
    let u : ℝ × ℝ :=
      if res.distSq > EPS then
        (res.dx * (1 / dist), res.dy * (1 / dist))
      else
        let sx := bx - ax
        let sy := by_ - ay
        let nn := Real.sqrt (sx * sx + sy * sy)
        if nn > EPS then (-sy / nn, sx / nn) else (1, 0)
    let fx := u.1 * mag
    let fy := u.2 * mag
    let w0 := 1 - res.t
    let w1 := res.t
    ((if p = pi_ then fx else 0) - (if p = a then fx * w0 else 0)
      - (if p = b then fx * w1 else 0),
     (if p = pi_ then fy else 0) - (if p = a then fy * w0 else 0)
      - (if p = b then fy * w1 else 0))

/-- Guarded contribution of the point-segment interaction (pi, si) to p. -/
noncomputable def psTerm (s : SolverState) (pi_ si p : ℕ) : ℝ × ℝ :=
  if psActive s pi_ si then psForce s pi_ si p else (0, 0)

/-- Mark-free idealization of the total point-segment force on point p:
every interaction passing the stateless guards contributes exactly once; the
interactions the source computes are, as for the segment-segment kernel, a
subset of these, so the zero-contribution theorems proved about this sum
hold of the source as well. -/
noncomputable def pointSegF (s : SolverState) (p : ℕ) : ℝ × ℝ :=
  ∑ pi_ ∈ Finset.range s.n, ∑ si ∈ Finset.range s.m, psTerm s pi_ si p

/-- The bounds keep-in kernel force on point p: four signed gaps against the
padded, radius-inset rectangle, each edge pushing inward. -/
noncomputable def boundsF (s : SolverState) (p : ℕ) : ℝ × ℝ :=
  if p < s.n then
    let minX := s.prob.bounds.minX + s.prob.boundaryPadding
    let minY := s.prob.bounds.minY + s.prob.boundaryPadding
    let maxX := s.prob.bounds.maxX - s.prob.boundaryPadding
    let maxY := s.prob.bounds.maxY - s.prob.boundaryPadding
    let x := s.px p
    let y := s.py p
    let r := s.pr p
    let gapL := x - (minX + r)
    let gapR := maxX - r - x
    let gapB := y - (minY + r)
    let gapT := maxY - r - y
    let k := s.prob.interactions.boundsKeepIn.exponentialDecay
    let st := s.prob.interactions.boundsKeepIn.strength
    let om := s.prob.interactions.boundsKeepIn.overlapMultiplier
    let magL := (if gapL < 0 then om else 1) * st * (if k = 0 then 1 else safeExp (-k * gapL))
    let magR := (if gapR < 0 then om else 1) * st * (if k = 0 then 1 else safeExp (-k * gapR))
    let magB := (if gapB < 0 then om else 1) * st * (if k = 0 then 1 else safeExp (-k * gapB))
    let magT := (if gapT < 0 then om else 1) * st * (if k = 0 then 1 else safeExp (-k * gapT))
    (magL - magR, magB - magT)
  else (0, 0)

/-- Contribution of segment i to the slot of point p in the fixed-length
kernel: skipped unless the fixed-length flag is set, the endpoints resolve,
one of them is movable, the length exceeds EPS and the error is nonzero;
otherwise a force along the segment axis pulling the error to zero. -/
noncomputable def flTerm (s : SolverState) (i p : ℕ) : ℝ × ℝ :=
  if s.segFixedLen i = true ∧ (0 ≤ s.segA i ∧ 0 ≤ s.segB i) ∧
      (s.movable (s.segA i).toNat = true ∨ s.movable (s.segB i).toNat = true) then
    let a := (s.segA i).toNat
    let b := (s.segB i).toNat
    let dx := s.px b - s.px a
    let dy := s.py b - s.py a
    let len := Real.sqrt (dx * dx + dy * dy)
    if len ≤ EPS then (0, 0)
    else
      let err := len - s.restLen i
      if |err| ≤ 0 then (0, 0)
      else
        let k := s.prob.interactions.fixedLengthCorrection.exponentialDecay
        let st := s.prob.interactions.fixedLengthCorrection.strength
        let gain := if k = 0 then 1 else safeExp (k * |err|)
        let mag := st * err * gain
        let ux := dx / len
        let uy := dy / len
        ((if p = a then ux * mag else 0) - (if p = b then ux * mag else 0),
         (if p = a then uy * mag else 0) - (if p = b then uy * mag else 0))
  else (0, 0)

/-- Total force of the fixed-length kernel on point p. -/
noncomputable def fixedLenF (s : SolverState) (p : ℕ) : ℝ × ℝ :=
  ∑ i ∈ Finset.range s.m, flTerm s i p

/-- Contribution of segment i to the slot of point p in the
fixed-orientation kernel: a couple along the left normal of the segment,
scaled by the wrapped angle error and the length. -/
noncomputable def foTerm (s : SolverState) (i p : ℕ) : ℝ × ℝ :=
  if s.segFixedOri i = true ∧ (0 ≤ s.segA i ∧ 0 ≤ s.segB i) ∧
      (s.movable (s.segA i).toNat = true ∨ s.movable (s.segB i).toNat = true) then
    let a := (s.segA i).toNat
    let b := (s.segB i).toNat
    let dx := s.px b - s.px a
    let dy := s.py b - s.py a
    let len := Real.sqrt (dx * dx + dy * dy)
    if len ≤ EPS then (0, 0)
    else
      let ang := atan2 dy dx
      let err := wrapToPi (ang - s.restAngle i)
      let k := s.prob.interactions.fixedOrientationCorrection.exponentialDecay
      let st := s.prob.interactions.fixedOrientationCorrection.strength
      let gain := if k = 0 then 1 else safeExp (k * |err|)
      let mag := st * err * len * gain
      let ux := dx / len
      let uy := dy / len
      let nx := -uy
      let ny := ux
      ((if p = a then nx * mag else 0) - (if p = b then nx * mag else 0),
       (if p = a then ny * mag else 0) - (if p = b then ny * mag else 0))
  else (0, 0)

/-- Total force of the fixed-orientation kernel on point p. -/
noncomputable def fixedOriF (s : SolverState) (p : ℕ) : ℝ × ℝ :=
  ∑ i ∈ Finset.range s.m, foTerm s i p

/-- The assembled force buffer entry of point p after the five kernels of one
step, before relaxation scaling. -/
noncomputable def totalForce (s : SolverState) (p : ℕ) : ℝ × ℝ :=
  segSegF s p + pointSegF s p + boundsF s p + fixedLenF s p + fixedOriF s p

/-- The condition under which the final-steps relaxation multiplies the force
buffer: a positive relaxationSteps and no more remaining steps than that. -/
def relaxCondition (s : SolverState) : Prop :=
  0 < s.prob.solve.relaxationSteps.getD 0 ∧
  (s.maxIterations : ℤ) - (s.iterations : ℤ) ≤ (s.prob.solve.relaxationSteps.getD 0 : ℤ)

/-- The relaxation scale variable of the step: remaining over relaxationSteps
inside the relaxation window, otherwise one. -/
noncomputable def relaxScale (s : SolverState) : ℝ :=
  if relaxCondition s then
    ((s.maxIterations : ℝ) - (s.iterations : ℝ)) / (s.prob.solve.relaxationSteps.getD 0 : ℝ)
  else 1

/-- The force of point p after the optional relaxation scaling. -/
noncomputable def scaledForce (s : SolverState) (p : ℕ) : ℝ × ℝ :=
  (relaxScale s * (totalForce s p).1, relaxScale s * (totalForce s p).2)

/-- Effective friction of the step: the base friction (default one) ramped
toward one when the relaxation scale is below one. -/
noncomputable def frictionEff (s : SolverState) : ℝ :=
  let base := s.prob.solve.friction.getD 1
  if relaxScale s < 1 then 1 - (1 - base) * relaxScale s else base

/-- Momentum factor of the step, one minus the effective friction. -/
noncomputable def momentum (s : SolverState) : ℝ := 1 - frictionEff s

/-- Velocity of point i after the momentum and force update, before the
movement clamp: v * momentum + force * stepSize componentwise. -/
noncomputable def velPre (s : SolverState) (i : ℕ) : ℝ × ℝ :=
  (s.vx i * momentum s + (scaledForce s i).1 * s.prob.solve.stepSize,
   s.vy i * momentum s + (scaledForce s i).2 * s.prob.solve.stepSize)

/-- Squared magnitude of the updated velocity of point i. -/
noncomputable def moveM2 (s : SolverState) (i : ℕ) : ℝ :=
  (velPre s i).1 * (velPre s i).1 + (velPre s i).2 * (velPre s i).2

/-- Whether the integrator takes the movement branch for point i: the squared
velocity magnitude exceeds EPS (otherwise the velocity is zeroed and the
point, its external object and the movement maximum are left untouched). -/
noncomputable def movedProp (s : SolverState) (i : ℕ) : Prop := ¬moveM2 s i ≤ EPS

/-- Velocity of point i stored by the integrator: zero in the small-movement
branch, otherwise the updated velocity, rescaled to magnitude maxMovePerStep
when that option is set, positive and exceeded. -/
noncomputable def velAfter (s : SolverState) (i : ℕ) : ℝ × ℝ :=
  if moveM2 s i ≤ EPS then (0, 0)
  else
    match s.prob.solve.maxMovePerStep with
    | some mm =>
      if 0 < mm ∧ mm < Real.sqrt (moveM2 s i) then
        ((velPre s i).1 * (mm / Real.sqrt (moveM2 s i)),
         (velPre s i).2 * (mm / Real.sqrt (moveM2 s i)))
      else velPre s i
    | none => velPre s i

/-- The movement magnitude point i reports to the running maximum: zero for a
skipped point, the clamp value in the clamped branch, else the magnitude. -/
noncomputable def moveMag (s : SolverState) (i : ℕ) : ℝ :=
  if i < s.n ∧ s.movable i = true ∧ movedProp s i then
    match s.prob.solve.maxMovePerStep with
    | some mm =>
      if 0 < mm ∧ mm < Real.sqrt (moveM2 s i) then mm else Real.sqrt (moveM2 s i)
    | none => Real.sqrt (moveM2 s i)
  else 0

/-- The running maximum of movement magnitudes over the first k points. -/
noncomputable def maxMoveAux (s : SolverState) : ℕ → ℝ
  | 0 => 0
  | k + 1 => max (maxMoveAux s k) (moveMag s k)

/-- The overridden step method of the source (named step with a leading
underscore) on an initialized state: return unchanged when solved, otherwise
assemble forces, integrate the movable points, mirror their positions to the
external objects, and set the solved flag from the convergence test.  Force
and grid rebuilding have no across-step state: the force buffer is cleared at
the start of each step and the grid is rebuilt, so both are modelled as the
derived functions above. -/
noncomputable def stepBody (s : SolverState) : SolverState :=
  if s.solved then s
  else
    { s with
      px := fun i => if i < s.n ∧ s.movable i = true then s.px i + (velAfter s i).1 else s.px i
      py := fun i => if i < s.n ∧ s.movable i = true then s.py i + (velAfter s i).2 else s.py i
      vx := fun i => if i < s.n ∧ s.movable i = true then (velAfter s i).1 else s.vx i
      vy := fun i => if i < s.n ∧ s.movable i = true then (velAfter s i).2 else s.vy i
      extX := fun i => if i < s.n ∧ s.movable i = true ∧ movedProp s i then
        s.px i + (velAfter s i).1 else s.extX i
      extY := fun i => if i < s.n ∧ s.movable i = true ∧ movedProp s i then
        s.py i + (velAfter s i).2 else s.extY i
      solved := decide (maxMoveAux s s.n ≤ s.prob.solve.epsilonMove) }

/-- Modelled from the spec: the public step of the base class BaseSolver
(from the external package, not under src/) advances one iteration and calls
the overridden step body; after solved becomes true a call changes nothing. -/
noncomputable def step (s : SolverState) : SolverState :=
  if s.solved then s else stepBody { s with iterations := s.iterations + 1 }

/-- The source method ensureInitialized (with a leading underscore), run on
the first step: id-to-index maps with last-occurrence-wins Map semantics,
parallel arrays for points and segments, layer masks or sets, rest length and
angle snapshots, the global influence distance and the grid geometry.
Velocities start at zero, the solved flag false, the iteration counter zero,
and MAX_ITERATIONS is maxSteps as in the constructor.  The external position
stores start equal to the problem positions, which the internal arrays copy. -/
noncomputable def initState (prob : Problem) : SolverState :=
  let n := prob.points.length
  let m := prob.segments.length
  let pt : ℕ → PointEntity := fun i => prob.points.getD i defaultPoint
  let sg : ℕ → SegmentEntity := fun i => prob.segments.getD i defaultSegment
  let pointIdList := prob.points.map (fun p => p.pointId)
  let segAf : ℕ → ℤ := fun i => lastIndexOf pointIdList (sg i).startPointId
  let segBf : ℕ → ℤ := fun i => lastIndexOf pointIdList (sg i).endPointId
  let pxf : ℕ → ℝ := fun i => (pt i).x
  let pyf : ℕ → ℝ := fun i => (pt i).y
  let maxPointR := (prob.points.map (fun p => p.radius)).foldl max 0
  let maxSegHalf := (prob.segments.map (fun sg0 => sg0.width * 0.5)).foldl max 0
  let maxMinSep := max prob.interactions.segSegRepel.minSeparation
    prob.interactions.pointSegRepel.minSeparation
  let baseSep := max (maxPointR + maxSegHalf) (2 * maxSegHalf) + maxMinSep
  let decays := [prob.interactions.segSegRepel.exponentialDecay,
    prob.interactions.pointSegRepel.exponentialDecay].filter (fun d => 0 < d)
  let minPositiveDecay : ℝ := match decays with
    | [] => 0
    | d :: rest => rest.foldl min d
  let cutoffGap := if 0 < minPositiveDecay then 6.907755278982137 / minPositiveDecay
    else baseSep * 10 + 1
  let influence := baseSep + cutoffGap
  let cell := max influence (1 / 10 ^ 3)
  { prob := prob
    n := n
    m := m
    px := pxf
    py := pyf
    pr := fun i => (pt i).radius
    movable := fun i => (pt i).movable
    extX := pxf
    extY := pyf
    segA := segAf
    segB := segBf
    segHalfWidth := fun i => (sg i).width * 0.5
    segFixedLen := fun i => (sg i).fixedLength
    segFixedOri := fun i => (sg i).fixedOrientation
    restLen := fun i => if 0 ≤ segAf i ∧ 0 ≤ segBf i then
      Real.sqrt ((pxf (segBf i).toNat - pxf (segAf i).toNat) *
          (pxf (segBf i).toNat - pxf (segAf i).toNat) +
        (pyf (segBf i).toNat - pyf (segAf i).toNat) *
          (pyf (segBf i).toNat - pyf (segAf i).toNat)) else 0
    restAngle := fun i => if 0 ≤ segAf i ∧ 0 ≤ segBf i then
      atan2 (pyf (segBf i).toNat - pyf (segAf i).toNat)
        (pxf (segBf i).toNat - pxf (segAf i).toNat) else 0
    segLayerIdx := fun i => lastIndexOf prob.layerIds (sg i).layerId
    segLayerId := fun i => (sg i).layerId
    useLayerBitmask := decide (prob.layerIds.length ≤ 30)
    pointLayerMask32 := fun i => buildMask prob.layerIds (pt i).layerIds
    pointLayerSets := fun i => (pt i).layerIds
    vx := fun _ => 0
    vy := fun _ => 0
    gridOriginX := prob.bounds.minX
    gridOriginY := prob.bounds.minY
    invCellSize := 1 / cell
    globalInfluence := influence
    solved := false
    iterations := 0
    maxIterations := prob.solve.maxSteps }

/-- The skip condition of the segment-segment kernel exactly as the claim
words it: either segment inert, layers differ, a shared endpoint, or all four
endpoints non-movable.  Stated on the cached state to compare with the guard
sequence the code actually runs. -/
def ssSkipClaimed (s : SolverState) (i j : ℕ) : Prop :=
  (s.segA i < 0 ∨ s.segB i < 0) ∨ (s.segA j < 0 ∨ s.segB j < 0) ∨
  s.segLayerIdx i ≠ s.segLayerIdx j ∨
  ssShareEndpoint s i j ∨
  (s.movable (s.segA i).toNat = false ∧ s.movable (s.segB i).toNat = false ∧
   s.movable (s.segA j).toNat = false ∧ s.movable (s.segB j).toNat = false)

/-- State with the layer index of segment k overwritten, used to express that
the constraint kernels read no layer data. -/
def setSegLayerIdx (s : SolverState) (k : ℕ) (v : ℤ) : SolverState :=
  { s with segLayerIdx := fun i => if i = k then v else s.segLayerIdx i }

/-- A one-point problem used as concrete input: a single movable point at
(-10, 50) outside the left edge of the bounds square from 0 to 100, no
segments, only the bounds keep-in force enabled with the given strength,
overlap multiplier two and no decay, unit step size, and the given optional
movement clamp. -/
noncomputable def probOnePoint (mm : Option ℝ) (bStr : ℝ) : Problem :=
  { bounds := { minX := 0, minY := 0, maxX := 100, maxY := 100 }
    boundaryPadding := 0
    layerIds := ["0"]
    points :=
      [{ pointId := "p0", x := -10, y := 50, movable := true, radius := 0
         layerIds := ["0"] }]
    segments := []
    interactions :=
      { segSegRepel := { strength := 0, exponentialDecay := 0, overlapMultiplier := 1, minSeparation := 0 }
        pointSegRepel := { strength := 0, exponentialDecay := 0, overlapMultiplier := 1, minSeparation := 0 }
        boundsKeepIn := { strength := bStr, exponentialDecay := 0, overlapMultiplier := 2 }
        fixedLengthCorrection := { strength := 0, exponentialDecay := 0 }
        fixedOrientationCorrection := { strength := 0, exponentialDecay := 0 } }
    solve := { maxSteps := 10, stepSize := 1, epsilonMove := 1 / 100, maxMovePerStep := mm, friction := none, relaxationSteps := none } }

/-- A two-segment problem used as concrete input for the segment-segment
kernel guards: segment 0 joins two fixed points on the x axis, segment 1
joins two movable points one unit above, both on the same known layer,
sharing no endpoint, with repulsion strength one and no decay. -/
noncomputable def probTwoSegs : Problem :=
  { bounds := { minX := 0, minY := 0, maxX := 10, maxY := 10 }
    boundaryPadding := 0
    layerIds := ["0"]
    points :=
      [{ pointId := "a0", x := 0, y := 0, movable := false, radius := 0, layerIds := ["0"] },
       { pointId := "a1", x := 1, y := 0, movable := false, radius := 0, layerIds := ["0"] },
       { pointId := "b0", x := 0, y := 1, movable := true, radius := 0, layerIds := ["0"] },
       { pointId := "b1", x := 1, y := 1, movable := true, radius := 0, layerIds := ["0"] }]
    segments :=
      [{ segmentId := "s0", startPointId := "a0", endPointId := "a1", width := 0,
         layerId := "0", fixedLength := false, fixedOrientation := false },
       { segmentId := "s1", startPointId := "b0", endPointId := "b1", width := 0,
         layerId := "0", fixedLength := false, fixedOrientation := false }]
    interactions :=
      { segSegRepel := { strength := 1, exponentialDecay := 0, overlapMultiplier := 1, minSeparation := 0 }
        pointSegRepel := { strength := 0, exponentialDecay := 0, overlapMultiplier := 1, minSeparation := 0 }
        boundsKeepIn := { strength := 0, exponentialDecay := 0, overlapMultiplier := 1 }
        fixedLengthCorrection := { strength := 0, exponentialDecay := 0 }
        fixedOrientationCorrection := { strength := 0, exponentialDecay := 0 } }
    solve := { maxSteps := 10, stepSize := 1, epsilonMove := 1 / 100, maxMovePerStep := none, friction := none, relaxationSteps := none } }

/-- A problem whose single segment references a point id that no point has,
used as concrete input for the inert-segment claim. -/
noncomputable def probDangling : Problem :=
  { bounds := { minX := 0, minY := 0, maxX := 10, maxY := 10 }
    boundaryPadding := 0
    layerIds := ["0"]
    points :=
      [{ pointId := "p0", x := 0, y := 0, movable := true, radius := 0
         layerIds := ["0"] }]
    segments :=
      [{ segmentId := "s0", startPointId := "p0", endPointId := "nope", width := 1
         layerId := "0", fixedLength := true, fixedOrientation := true }]
    interactions :=
      { segSegRepel := { strength := 1, exponentialDecay := 0, overlapMultiplier := 1, minSeparation := 0 }
        pointSegRepel := { strength := 1, exponentialDecay := 0, overlapMultiplier := 1, minSeparation := 0 }
        boundsKeepIn := { strength := 0, exponentialDecay := 0, overlapMultiplier := 1 }
        fixedLengthCorrection := { strength := 1, exponentialDecay := 0 }
        fixedOrientationCorrection := { strength := 1, exponentialDecay := 0 } }
    solve := { maxSteps := 10, stepSize := 1, epsilonMove := 1 / 100, maxMovePerStep := none, friction := none, relaxationSteps := none } }

/-- A problem whose single segment lies on a layer id absent from layerIds,
used as concrete input for the unknown-layer claim: both endpoints resolve
and one is movable. -/
noncomputable def probUnknownLayer : Problem :=
  { bounds := { minX := 0, minY := 0, maxX := 10, maxY := 10 }
    boundaryPadding := 0
    layerIds := ["0"]
    points :=
      [{ pointId := "p0", x := 0, y := 0, movable := false, radius := 0, layerIds := ["0"] },
       { pointId := "p1", x := 1, y := 0, movable := true, radius := 0, layerIds := ["0"] }]
    segments :=
      [{ segmentId := "s0", startPointId := "p0", endPointId := "p1", width := 1
         layerId := "X", fixedLength := true, fixedOrientation := true }]
    interactions :=
      { segSegRepel := { strength := 1, exponentialDecay := 0, overlapMultiplier := 1, minSeparation := 0 }
        pointSegRepel := { strength := 1, exponentialDecay := 0, overlapMultiplier := 1, minSeparation := 0 }
        boundsKeepIn := { strength := 0, exponentialDecay := 0, overlapMultiplier := 1 }
        fixedLengthCorrection := { strength := 1, exponentialDecay := 0 }
        fixedOrientationCorrection := { strength := 1, exponentialDecay := 0 } }
    solve := { maxSteps := 10, stepSize := 1, epsilonMove := 1 / 100, maxMovePerStep := none, friction := none, relaxationSteps := none } }

/-- The initialized one-point state with the movement clamp set to zero, the
concrete input of the movement-clamp counterexample. -/
noncomputable def csClampZero : SolverState := initState (probOnePoint (some 0) 1)

/-- A freshly allocated visited-mark state: an Int32Array starts at zero,
and zero differs from every query mark, which is an index plus one. -/
def freshMarks : ℕ → ℤ := fun _ => 0

/-- All five interaction families disabled: every strength is zero. -/
def allStrengthsZero (P : Problem) : Prop :=
  P.interactions.segSegRepel.strength = 0 ∧
  P.interactions.pointSegRepel.strength = 0 ∧
  P.interactions.boundsKeepIn.strength = 0 ∧
  P.interactions.fixedLengthCorrection.strength = 0 ∧
  P.interactions.fixedOrientationCorrection.strength = 0

theorem TAU_pos : 0 < TAU := by
  unfold TAU
  positivity

theorem nnmod_nonneg (x : ℝ) : 0 ≤ nnmod x TAU := by
  have h := Int.floor_le (x / TAU)
  have ht := TAU_pos
  have h2 : TAU * (⌊x / TAU⌋ : ℝ) ≤ TAU * (x / TAU) :=
    mul_le_mul_of_nonneg_left h (le_of_lt ht)
  have hx : TAU * (x / TAU) = x := by field_simp
  unfold nnmod
  linarith

theorem nnmod_lt (x : ℝ) : nnmod x TAU < TAU := by
  have h := Int.lt_floor_add_one (x / TAU)
  have ht := TAU_pos
  have h2 : TAU * (x / TAU) < TAU * ((⌊x / TAU⌋ : ℝ) + 1) :=
    mul_lt_mul_of_pos_left h ht
  have hx : TAU * (x / TAU) = x := by field_simp
  unfold nnmod
  nlinarith

theorem jsFmod_adjust (x : ℝ) :
    (if jsFmod x TAU < 0 then jsFmod x TAU + TAU else jsFmod x TAU) = nnmod x TAU := by
  have ht := TAU_pos
  have hnn := nnmod_nonneg x
  have hlt := nnmod_lt x
  by_cases h0 : 0 ≤ x / TAU
  · have hf : jsFmod x TAU = nnmod x TAU := by
      unfold jsFmod jsTrunc nnmod
      rw [if_pos h0]
    rw [hf, if_neg (not_lt.mpr hnn)]
  · have hceil : (⌈x / TAU⌉ : ℤ) = ⌊x / TAU⌋ ∨ (⌈x / TAU⌉ : ℤ) = ⌊x / TAU⌋ + 1 := by
      have h1 := Int.floor_le_ceil (x / TAU)
      have h2 := Int.ceil_le_floor_add_one (x / TAU)
      omega
    rcases hceil with hc | hc
    · have hf : jsFmod x TAU = nnmod x TAU := by
        unfold jsFmod jsTrunc nnmod
        rw [if_neg h0, hc]
      rw [hf, if_neg (not_lt.mpr hnn)]
    · have hf : jsFmod x TAU = nnmod x TAU - TAU := by
        unfold jsFmod jsTrunc nnmod
        rw [if_neg h0, hc]
        push_cast
        ring
      rw [hf, if_pos (by linarith)]
      ring

theorem nnmod_shift (x : ℝ) : nnmod (nnmod x TAU + TAU) TAU = nnmod x TAU := by
  have ht := TAU_pos
  have hnn := nnmod_nonneg x
  have hlt := nnmod_lt x
  have hdiv : (nnmod x TAU + TAU) / TAU = nnmod x TAU / TAU + 1 := by
    rw [add_div, div_self (ne_of_gt ht)]
  have hfl : ⌊nnmod x TAU / TAU⌋ = 0 := by
    rw [Int.floor_eq_zero_iff]
    constructor
    · exact div_nonneg hnn (le_of_lt ht)
    · rw [div_lt_one ht]
      exact hlt
  have h1 : ⌊(nnmod x TAU + TAU) / TAU⌋ = 1 := by
    rw [hdiv, Int.floor_add_one, hfl]
    norm_num
  have expand : nnmod (nnmod x TAU + TAU) TAU
      = (nnmod x TAU + TAU) - TAU * ((⌊(nnmod x TAU + TAU) / TAU⌋ : ℤ) : ℝ) := rfl
  rw [expand, h1]
  push_cast
  ring

theorem wrapToPi_eq_nnmod (a : ℝ) :
    wrapToPi a = nnmod (a + Real.pi) TAU - Real.pi := by
  simp only [wrapToPi]
  rw [jsFmod_adjust]

/-- C4, amended.  For every real input a, wrapToPi a equals the formula of
the specification, the doubly reduced nonnegative remainder of a + pi by two
pi, minus pi; its value lies in the half-open interval from -pi inclusive to
pi exclusive (the claim instead asserted the interval from -pi exclusive to
pi inclusive, which fails at a = pi). -/
theorem wrapToPi_formula_and_range (a : ℝ) :
    wrapToPi a = wrapToPiSpecFormula a ∧ -Real.pi ≤ wrapToPi a ∧ wrapToPi a < Real.pi := by
  have h1 := wrapToPi_eq_nnmod a
  have hnn := nnmod_nonneg (a + Real.pi)
  have hlt := nnmod_lt (a + Real.pi)
  have hT : TAU = Real.pi * 2 := rfl
  refine ⟨?_, ?_, ?_⟩
  · rw [h1]
    unfold wrapToPiSpecFormula
    rw [nnmod_shift]
  · rw [h1]; linarith
  · rw [h1]; linarith [hlt, hT ▸ hlt]

/-- C4, counterexample.  At the input pi (where a + pi is an exact multiple
of two pi) wrapToPi returns exactly -pi, which does not lie in the claimed
half-open interval from -pi exclusive to pi inclusive. -/
theorem wrapToPi_at_pi_counterexample :
    wrapToPi Real.pi = -Real.pi ∧ ¬(-Real.pi < wrapToPi Real.pi) := by
  have h1 := wrapToPi_eq_nnmod Real.pi
  have hdiv : (Real.pi + Real.pi) / TAU = 1 := by
    unfold TAU
    field_simp
    ring
  have hnn : nnmod (Real.pi + Real.pi) TAU = 0 := by
    unfold nnmod
    rw [hdiv]
    norm_num
    unfold TAU
    ring
  have h2 : wrapToPi Real.pi = -Real.pi := by
    rw [h1, hnn]; ring
  exact ⟨h2, by rw [h2]; exact lt_irrefl _⟩

theorem lastIndexOf_lt_length (l : List String) (id : String) :
    lastIndexOf l id < l.length := by
  induction l with
  | nil => simp [lastIndexOf]
  | cons x rest ih =>
    simp only [lastIndexOf, List.length_cons]
    split
    · push_cast; omega
    · split
      · push_cast; omega
      · push_cast; omega

theorem lastIndexOf_neg_iff (l : List String) (id : String) :
    lastIndexOf l id < 0 ↔ id ∉ l := by
  induction l with
  | nil => simp [lastIndexOf]
  | cons x rest ih =>
    simp only [lastIndexOf, List.mem_cons]
    by_cases hr : 0 ≤ lastIndexOf rest id
    · rw [if_pos hr]
      have : id ∈ rest := by
        by_contra hmem
        exact absurd (ih.mpr hmem) (not_lt.mpr hr)
      constructor
      · intro h; omega
      · intro h; exact absurd (Or.inr this) h
    · rw [if_neg hr]
      have hnotin : id ∉ rest := ih.mp (lt_of_not_le hr)
      by_cases hx : x = id
      · rw [if_pos hx]
        constructor
        · intro h; omega
        · intro h; exact absurd (Or.inl hx.symm) h
      · rw [if_neg hx]
        constructor
        · intro _ h
          rcases h with h | h
          · exact hx h.symm
          · exact hnotin h
        · intro _; norm_num
theorem lastIndexOf_get (l : List String) (id : String) (h : 0 ≤ lastIndexOf l id) :
    l.get? (lastIndexOf l id).toNat = some id := by
  induction l with
  | nil => simp [lastIndexOf] at h
  | cons x rest ih =>
    simp only [lastIndexOf] at h ⊢
    by_cases hr : 0 ≤ lastIndexOf rest id
    · rw [if_pos hr] at h ⊢
      have hnat : (lastIndexOf rest id + 1).toNat = (lastIndexOf rest id).toNat + 1 := by
        omega
      rw [hnat]
      simpa using ih hr
    · rw [if_neg hr] at h ⊢
      by_cases hx : x = id
      · rw [if_pos hx] at h ⊢
        simp [hx]
      · rw [if_neg hx] at h
        norm_num at h

theorem lastIndexOf_inj (l : List String) (x y : String) (hx : 0 ≤ lastIndexOf l x)
    (hxy : lastIndexOf l x = lastIndexOf l y) : x = y := by
  have h1 := lastIndexOf_get l x hx
  have h2 := lastIndexOf_get l y (hxy ▸ hx)
  rw [hxy] at h1
  exact Option.some.inj (h1.symm.trans h2)

theorem buildMask_testBit (L P : List String) (t : ℕ) :
    (buildMask L P).testBit t = true ↔
      ∃ lid ∈ P, 0 ≤ lastIndexOf L lid ∧ (lastIndexOf L lid).toNat % 32 = t := by
  induction P with
  | nil => simp [buildMask]
  | cons lid rest ih =>
    simp only [buildMask]
    by_cases h : 0 ≤ lastIndexOf L lid
    · rw [if_pos h, Nat.testBit_or, Bool.or_eq_true, ih]
      constructor
      · rintro (⟨w, hw, hw1, hw2⟩ | hbit)
        · exact ⟨w, List.mem_cons_of_mem _ hw, hw1, hw2⟩
        · rw [Nat.testBit_two_pow] at hbit
          exact ⟨lid, List.mem_cons_self _ _, h, of_decide_eq_true hbit⟩
      · rintro ⟨w, hwmem, hw1, hw2⟩
        rcases List.mem_cons.mp hwmem with hw | hw
        · subst hw
          right
          rw [Nat.testBit_two_pow, hw2]
          simp
        · left
          exact ⟨w, hw, hw1, hw2⟩
    · rw [if_neg h, ih]
      constructor
      · rintro ⟨w, hw, hw1, hw2⟩
        exact ⟨w, List.mem_cons_of_mem _ hw, hw1, hw2⟩
      · rintro ⟨w, hwmem, hw1, hw2⟩
        rcases List.mem_cons.mp hwmem with hw | hw
        · subst hw
          exact absurd hw1 h
        · exact ⟨w, hw, hw1, hw2⟩

/-- C7.  For layer id lists of length at most 30 (the bitmask mode), the
bitmask membership decision and the set membership decision agree for every
point layer id list and every segment layer id; both are false when the
segment layer id is unknown in layerIds, and an unknown id added to the point
layer ids changes neither decision. -/
theorem layer_membership_equiv (L P : List String) (sid : String)
    (h30 : L.length ≤ 30) :
    decisionBitmask L P sid = decisionSet L P sid ∧
    (lastIndexOf L sid < 0 →
      decisionBitmask L P sid = false ∧ decisionSet L P sid = false) ∧
    (∀ u : String, lastIndexOf L u < 0 →
      decisionBitmask L (u :: P) sid = decisionBitmask L P sid ∧
      decisionSet L (u :: P) sid = decisionSet L P sid) := by
  have hmain : ∀ Q : List String, decisionBitmask L Q sid = decisionSet L Q sid := by
    intro Q
    unfold decisionBitmask decisionSet
    by_cases hneg : lastIndexOf L sid < 0
    · simp [hneg]
    · rw [if_neg hneg, if_neg hneg]
      have hk : 0 ≤ lastIndexOf L sid := not_lt.mp hneg
      have hlen := lastIndexOf_lt_length L sid
      have hlt : lastIndexOf L sid < 30 := by
        have : (L.length : ℤ) ≤ 30 := by exact_mod_cast h30
        omega
      have hmod : (lastIndexOf L sid).toNat % 32 = (lastIndexOf L sid).toNat :=
        Nat.mod_eq_of_lt (by omega)
      apply decide_eq_decide.mpr
      rw [Ne, Nat.and_two_pow]
      constructor
      · intro hne
        have hbit : (buildMask L Q).testBit ((lastIndexOf L sid).toNat % 32) = true := by
          by_contra hb
          rw [Bool.not_eq_true] at hb
          rw [hb] at hne
          simp at hne
        obtain ⟨w, hwmem, hw1, hw2⟩ := (buildMask_testBit L Q _).mp hbit
        have hwlt : lastIndexOf L w < 30 := by
          have := lastIndexOf_lt_length L w
          have : (L.length : ℤ) ≤ 30 := by exact_mod_cast h30
          omega
        have hweq : lastIndexOf L w = lastIndexOf L sid := by
          rw [Nat.mod_eq_of_lt (by omega)] at hw2
          rw [hmod] at hw2
          omega
        have : w = sid := lastIndexOf_inj L w sid hw1 hweq
        subst this
        exact hwmem
      · intro hmem
        have hbit : (buildMask L Q).testBit ((lastIndexOf L sid).toNat % 32) = true :=
          (buildMask_testBit L Q _).mpr ⟨sid, hmem, hk, rfl⟩
        rw [hbit]
        simp
  refine ⟨hmain P, ?_, ?_⟩
  · intro hneg
    unfold decisionBitmask decisionSet
    simp [hneg]
  · intro u hu
    have h1 : buildMask L (u :: P) = buildMask L P := by
      simp only [buildMask]
      rw [if_neg (not_le.mpr hu)]
    constructor
    · unfold decisionBitmask
      rw [h1]
    · unfold decisionSet
      by_cases hneg : lastIndexOf L sid < 0
      · simp [hneg]
      · rw [if_neg hneg, if_neg hneg]
        have hsu : sid ≠ u := by
          intro he
          subst he
          exact absurd hu (not_lt.mpr (not_lt.mp hneg))
        apply decide_eq_decide.mpr
        simp [List.mem_cons, hsu]

/-- C7, witness at a concrete instance: a two-layer list, a point on the
second layer, a segment on the second layer. -/
theorem layer_membership_equiv_witness :
    (["0", "1"].length ≤ 30) ∧
    (decisionBitmask ["0", "1"] ["1"] "1" = decisionSet ["0", "1"] ["1"] "1" ∧
    (lastIndexOf ["0", "1"] "1" < 0 →
      decisionBitmask ["0", "1"] ["1"] "1" = false ∧
      decisionSet ["0", "1"] ["1"] "1" = false) ∧
    (∀ u : String, lastIndexOf ["0", "1"] u < 0 →
      decisionBitmask ["0", "1"] (u :: ["1"]) "1" = decisionBitmask ["0", "1"] ["1"] "1" ∧
      decisionSet ["0", "1"] (u :: ["1"]) "1" = decisionSet ["0", "1"] ["1"] "1")) :=
  ⟨by decide, layer_membership_equiv ["0", "1"] ["1"] "1" (by decide)⟩

/-- C9.  On the documented coordinate range (each coordinate between minus 2
to the 25 and 2 to the 25 minus 1), the grid cell key is injective, and each
key is a nonnegative integer strictly below 2 to the 53, hence exactly
representable in double precision. -/
theorem cellKey_injective_and_exact (cx cy cx2 cy2 : ℤ)
    (h1 : -2 ^ 25 ≤ cx) (h2 : cx ≤ 2 ^ 25 - 1)
    (h3 : -2 ^ 25 ≤ cy) (h4 : cy ≤ 2 ^ 25 - 1)
    (h5 : -2 ^ 25 ≤ cx2) (h6 : cx2 ≤ 2 ^ 25 - 1)
    (h7 : -2 ^ 25 ≤ cy2) (h8 : cy2 ≤ 2 ^ 25 - 1) :
    (cellKey cx cy = cellKey cx2 cy2 ↔ cx = cx2 ∧ cy = cy2) ∧
    0 ≤ cellKey cx cy ∧ cellKey cx cy < 2 ^ 53 := by
  unfold cellKey CELL_OFFSET CELL_BASE
  refine ⟨⟨fun h => by constructor <;> omega, fun h => by rw [h.1, h.2]⟩, by omega, by omega⟩

/-- C9, witness at the concrete distinct cell coordinates (3, -5) and
(3, 4). -/
theorem cellKey_injective_and_exact_witness :
    ((-2 ^ 25 ≤ (3 : ℤ)) ∧ ((3 : ℤ) ≤ 2 ^ 25 - 1) ∧
     (-2 ^ 25 ≤ (-5 : ℤ)) ∧ ((-5 : ℤ) ≤ 2 ^ 25 - 1) ∧
     (-2 ^ 25 ≤ (4 : ℤ)) ∧ ((4 : ℤ) ≤ 2 ^ 25 - 1)) ∧
    ((cellKey 3 (-5) = cellKey 3 4 ↔ (3 : ℤ) = 3 ∧ (-5 : ℤ) = 4) ∧
     0 ≤ cellKey 3 (-5) ∧ cellKey 3 (-5) < 2 ^ 53) :=
  ⟨by norm_num,
   cellKey_injective_and_exact 3 (-5) 3 4 (by norm_num) (by norm_num) (by norm_num)
     (by norm_num) (by norm_num) (by norm_num) (by norm_num) (by norm_num)⟩

theorem EPS_pos : 0 < EPS := by
  unfold EPS
  norm_num

theorem solved_false_of_ne (b : Bool) (h : ¬b = true) : b = false := by
  cases b
  · rfl
  · exact absurd rfl h

theorem velAfter_of_small (s : SolverState) (i : ℕ) (h : ¬movedProp s i) :
    velAfter s i = (0, 0) := by
  unfold velAfter
  rw [if_pos (not_not.mp h)]

/-- C5.  On a state with the solved flag set, the overridden step body (whose
first action after the initialization guard is to return when solved) leaves
the entire state unchanged: every internal and external position, every
velocity, the iteration count and the solved flag; the public step of the
base class likewise changes nothing, and solved stays true. -/
theorem step_noop_when_solved (s : SolverState) (h : s.solved = true) :
    stepBody s = s ∧ step s = s ∧ (stepBody s).solved = true := by
  have h1 : stepBody s = s := by simp [stepBody, h]
  have h2 : step s = s := by simp [step, h]
  exact ⟨h1, h2, by rw [h1]; exact h⟩

/-- C5, witness: the initialized one-point state marked solved. -/
theorem step_noop_when_solved_witness :
    ({ initState (probOnePoint none 1) with solved := true } : SolverState).solved = true ∧
    (stepBody { initState (probOnePoint none 1) with solved := true } =
        { initState (probOnePoint none 1) with solved := true } ∧
      step { initState (probOnePoint none 1) with solved := true } =
        { initState (probOnePoint none 1) with solved := true } ∧
      (stepBody { initState (probOnePoint none 1) with solved := true }).solved = true) :=
  ⟨rfl, step_noop_when_solved _ rfl⟩

/-- C2.  From a state whose external position stores agree with the internal
arrays (as established at initialization and preserved by every step), one
step leaves the internal and external positions of every non-movable point
exactly as they were, and for every movable point the external store equals
the internal position after the step. -/
theorem step_frame_sync (s : SolverState)
    (hsync : ∀ i, s.extX i = s.px i ∧ s.extY i = s.py i) :
    (∀ i, s.movable i = false →
      (stepBody s).px i = s.px i ∧ (stepBody s).py i = s.py i ∧
      (stepBody s).extX i = s.extX i ∧ (stepBody s).extY i = s.extY i) ∧
    (∀ i, s.movable i = true →
      (stepBody s).extX i = (stepBody s).px i ∧
      (stepBody s).extY i = (stepBody s).py i) := by
  by_cases hs : s.solved = true
  · refine ⟨fun i _ => by simp [stepBody, hs], fun i _ => ?_⟩
    simp only [stepBody, if_pos hs]
    exact ⟨(hsync i).1, (hsync i).2⟩
  · have hs' : s.solved = false := solved_false_of_ne _ hs
    constructor
    · intro i hm
      simp [stepBody, hs', hm]
    · intro i hm
      by_cases hin : i < s.n
      · by_cases hmv : movedProp s i
        · simp [stepBody, hs', hm, hin, hmv]
        · have hva := velAfter_of_small s i hmv
          simp [stepBody, hs', hm, hin, hmv, hva, (hsync i).1, (hsync i).2]
      · simp [stepBody, hs', hin, (hsync i).1, (hsync i).2]

/-- C2, witness: the initialized one-point problem state, whose external
stores agree with the internal arrays by construction. -/
theorem step_frame_sync_witness :
    (∀ i, (initState (probOnePoint none 1)).extX i = (initState (probOnePoint none 1)).px i ∧
      (initState (probOnePoint none 1)).extY i = (initState (probOnePoint none 1)).py i) ∧
    ((∀ i, (initState (probOnePoint none 1)).movable i = false →
      (stepBody (initState (probOnePoint none 1))).px i = (initState (probOnePoint none 1)).px i ∧
      (stepBody (initState (probOnePoint none 1))).py i = (initState (probOnePoint none 1)).py i ∧
      (stepBody (initState (probOnePoint none 1))).extX i = (initState (probOnePoint none 1)).extX i ∧
      (stepBody (initState (probOnePoint none 1))).extY i = (initState (probOnePoint none 1)).extY i) ∧
    (∀ i, (initState (probOnePoint none 1)).movable i = true →
      (stepBody (initState (probOnePoint none 1))).extX i = (stepBody (initState (probOnePoint none 1))).px i ∧
      (stepBody (initState (probOnePoint none 1))).extY i = (stepBody (initState (probOnePoint none 1))).py i)) :=
  ⟨fun _ => ⟨rfl, rfl⟩, step_frame_sync _ (fun _ => ⟨rfl, rfl⟩)⟩

/-- C3, amended.  Whenever the schedule field maxMovePerStep is set to a
positive value, the displacement of every point in one step has magnitude at
most that value (the source applies the rescale only when the field is set,
positive and exceeded; the claim as frozen also covered the value zero, which
the guard deliberately ignores, see the counterexample). -/
theorem step_move_clamped (s : SolverState) (mm : ℝ)
    (hmm : s.prob.solve.maxMovePerStep = some mm) (hpos : 0 < mm) (i : ℕ) :
    Real.sqrt (((stepBody s).px i - s.px i) ^ 2 + ((stepBody s).py i - s.py i) ^ 2) ≤ mm := by
  by_cases hs : s.solved = true
  · simp [stepBody, hs, Real.sqrt_zero]
    linarith
  · have hs' : s.solved = false := solved_false_of_ne _ hs
    by_cases hc : i < s.n ∧ s.movable i = true
    · have hdx : (stepBody s).px i - s.px i = (velAfter s i).1 := by
        simp [stepBody, hs', hc]
      have hdy : (stepBody s).py i - s.py i = (velAfter s i).2 := by
        simp [stepBody, hs', hc]
      rw [hdx, hdy]
      by_cases hm2 : moveM2 s i ≤ EPS
      · have hva : velAfter s i = (0, 0) := by
          unfold velAfter
          rw [if_pos hm2]
        rw [hva]
        simp [Real.sqrt_zero]
        linarith
      · have hm2pos : 0 < moveM2 s i := lt_trans EPS_pos (not_le.mp hm2)
        have hsq : 0 < Real.sqrt (moveM2 s i) := Real.sqrt_pos.mpr hm2pos
        have hm2eq : moveM2 s i = (velPre s i).1 ^ 2 + (velPre s i).2 ^ 2 := by
          unfold moveM2
          ring
        have hva : velAfter s i =
            (if 0 < mm ∧ mm < Real.sqrt (moveM2 s i) then
              ((velPre s i).1 * (mm / Real.sqrt (moveM2 s i)),
               (velPre s i).2 * (mm / Real.sqrt (moveM2 s i)))
            else velPre s i) := by
          unfold velAfter
          rw [if_neg hm2, hmm]
        rw [hva]
        by_cases hclamp : 0 < mm ∧ mm < Real.sqrt (moveM2 s i)
        · rw [if_pos hclamp]
          have hc0 : 0 ≤ mm / Real.sqrt (moveM2 s i) := le_of_lt (div_pos hpos hsq)
          have hexp : ((velPre s i).1 * (mm / Real.sqrt (moveM2 s i))) ^ 2 +
              ((velPre s i).2 * (mm / Real.sqrt (moveM2 s i))) ^ 2 =
              (mm / Real.sqrt (moveM2 s i)) ^ 2 * ((velPre s i).1 ^ 2 + (velPre s i).2 ^ 2) := by
            ring
          rw [hexp, ← hm2eq, Real.sqrt_mul (sq_nonneg _), Real.sqrt_sq hc0,
            div_mul_cancel₀ mm (ne_of_gt hsq)]
        · rw [if_neg hclamp]
          have hle : Real.sqrt (moveM2 s i) ≤ mm := by
            rcases not_and_or.mp hclamp with h | h
            · exact absurd hpos h
            · exact not_lt.mp h
          calc Real.sqrt ((velPre s i).1 ^ 2 + (velPre s i).2 ^ 2)
              = Real.sqrt (moveM2 s i) := by rw [hm2eq]
            _ ≤ mm := hle
    · have hdx : (stepBody s).px i = s.px i := by
        simp [stepBody, hs', hc]
      have hdy : (stepBody s).py i = s.py i := by
        simp [stepBody, hs', hc]
      rw [hdx, hdy]
      simp [Real.sqrt_zero]
      linarith

/-- C3, witness: the one-point problem with the clamp set to one. -/
theorem step_move_clamped_witness :
    (initState (probOnePoint (some 1) 1)).prob.solve.maxMovePerStep = some 1 ∧ (0 : ℝ) < 1 ∧
    Real.sqrt (((stepBody (initState (probOnePoint (some 1) 1))).px 0 -
        (initState (probOnePoint (some 1) 1)).px 0) ^ 2 +
      ((stepBody (initState (probOnePoint (some 1) 1))).py 0 -
        (initState (probOnePoint (some 1) 1)).py 0) ^ 2) ≤ 1 :=
  ⟨rfl, by norm_num, step_move_clamped _ 1 rfl (by norm_num) 0⟩

/-- C3, counterexample.  With maxMovePerStep set (defined) to the value zero,
the rescale guard (which demands a strictly positive clamp) does not fire:
the single movable point, pushed by the boundary force, moves a full unit in
one step, so its displacement magnitude exceeds the defined clamp value. -/
theorem step_move_clamped_counterexample :
    csClampZero.prob.solve.maxMovePerStep = some 0 ∧
    (stepBody csClampZero).px 0 - csClampZero.px 0 = 1 ∧
    (stepBody csClampZero).py 0 - csClampZero.py 0 = 0 ∧
    ¬(Real.sqrt (((stepBody csClampZero).px 0 - csClampZero.px 0) ^ 2 +
        ((stepBody csClampZero).py 0 - csClampZero.py 0) ^ 2) ≤ 0) := by
  have hrs : csClampZero.prob.solve.relaxationSteps = none := rfl
  have hf : csClampZero.prob.solve.friction = none := rfl
  have hmm : csClampZero.prob.solve.maxMovePerStep = some 0 := rfl
  have hss : csClampZero.prob.solve.stepSize = 1 := rfl
  have hm : csClampZero.m = 0 := rfl
  have hn : csClampZero.n = 1 := rfl
  have hmov : csClampZero.movable 0 = true := rfl
  have hsol : csClampZero.solved = false := rfl
  have hvx : csClampZero.vx 0 = 0 := rfl
  have hvy : csClampZero.vy 0 = 0 := rfl
  have hpx : csClampZero.px 0 = -10 := rfl
  have hpy : csClampZero.py 0 = 50 := rfl
  have hmomentum : momentum csClampZero = 0 := by
    simp [momentum, frictionEff, relaxScale, relaxCondition, hrs, hf]
  have hscale : relaxScale csClampZero = 1 := by
    simp [relaxScale, relaxCondition, hrs]
  have hbounds : boundsF csClampZero 0 = (1, 0) := by
    have hminX : csClampZero.prob.bounds.minX = 0 := rfl
    have hminY : csClampZero.prob.bounds.minY = 0 := rfl
    have hmaxX : csClampZero.prob.bounds.maxX = 100 := rfl
    have hmaxY : csClampZero.prob.bounds.maxY = 100 := rfl
    have hpad : csClampZero.prob.boundaryPadding = 0 := rfl
    have hpr : csClampZero.pr 0 = 0 := rfl
    have hk : csClampZero.prob.interactions.boundsKeepIn.exponentialDecay = 0 := rfl
    have hst : csClampZero.prob.interactions.boundsKeepIn.strength = 1 := rfl
    have hom : csClampZero.prob.interactions.boundsKeepIn.overlapMultiplier = 2 := rfl
    simp only [boundsF, hn, hminX, hminY, hmaxX, hmaxY, hpad, hpx, hpy, hpr, hk, hst, hom]
    norm_num
  have htotal : totalForce csClampZero 0 = (1, 0) := by
    have h1 : segSegF csClampZero 0 = 0 := by simp [segSegF, hm]
    have h2 : pointSegF csClampZero 0 = 0 := by simp [pointSegF, hm]
    have h3 : fixedLenF csClampZero 0 = 0 := by simp [fixedLenF, hm]
    have h4 : fixedOriF csClampZero 0 = 0 := by simp [fixedOriF, hm]
    unfold totalForce
    rw [h1, h2, h3, h4, hbounds]
    simp
  have hvpre : velPre csClampZero 0 = (1, 0) := by
    unfold velPre scaledForce
    rw [hmomentum, hscale, htotal, hvx, hvy, hss]
    norm_num
  have hm2 : moveM2 csClampZero 0 = 1 := by
    unfold moveM2
    rw [hvpre]
    norm_num
  have hnotsmall : ¬moveM2 csClampZero 0 ≤ EPS := by
    rw [hm2]
    unfold EPS
    norm_num
  have hvel : velAfter csClampZero 0 = (1, 0) := by
    unfold velAfter
    rw [if_neg hnotsmall, hmm]
    dsimp only
    rw [if_neg (by norm_num)]
    exact hvpre
  have hdx : (stepBody csClampZero).px 0 - csClampZero.px 0 = 1 := by
    simp [stepBody, hsol, hn, hmov, hvel, hpx]
  have hdy : (stepBody csClampZero).py 0 - csClampZero.py 0 = 0 := by
    simp [stepBody, hsol, hn, hmov, hvel, hpy]
  refine ⟨hmm, hdx, hdy, ?_⟩
  rw [hdx, hdy]
  norm_num

theorem psActiveMarked_subset (s : SolverState) (marks : ℕ → ℤ) (q si : ℕ)
    (h : psActiveMarked s marks q si) : psActive s q si :=
  h.1

/-- C1, amended.  Given the visited-mark state at the moment the query of
segment i first encounters segment j (the segVisitedMark array is allocated
at initialization and never cleared, so this state carries marks from
earlier queries of either kernel and from earlier steps), a candidate pair
(i, j) with j after i has its repulsion force computed and distributed
exactly when: the stale mark of j differs from i plus one, both segments
have resolved endpoints, the layer of segment i is known and segment j has
the same layer, they share no endpoint, and at least one endpoint OF
SEGMENT I (the lower-indexed one) is movable.  Equivalently the pair is
skipped when either segment is inert, the layer of i is unknown or the
layers differ, they share an endpoint, both endpoints of segment i are
non-movable (so a candidate pair whose lower-indexed segment is fully fixed
is skipped even when the other segment could move, contrary to the claim as
frozen; the all-four-fixed inner check of the source is subsumed), or the
stale mark of j equals i plus one.  Every pair the source processes passes
the stateless guard predicate. -/
theorem ssPairActiveMarked_iff (s : SolverState) (marks : ℕ → ℤ) (i j : ℕ) :
    (ssPairActiveMarked s marks i j ↔
      (i < j ∧ ssCandidate s i j ∧ marks j ≠ (i : ℤ) + 1 ∧
       (0 ≤ s.segA i ∧ 0 ≤ s.segB i) ∧ (0 ≤ s.segA j ∧ 0 ≤ s.segB j) ∧
       0 ≤ s.segLayerIdx i ∧ s.segLayerIdx j = s.segLayerIdx i ∧
       ¬ssShareEndpoint s i j ∧
       (s.movable (s.segA i).toNat = true ∨ s.movable (s.segB i).toNat = true))) ∧
    (ssPairActiveMarked s marks i j → ssPairActive s i j) := by
  constructor
  · unfold ssPairActiveMarked ssPairActive
    constructor
    · rintro ⟨⟨h1, h2, h3, h4, h5, h6, h7, h8, h9, h10⟩, hm⟩
      exact ⟨h5, h6, hm, h1, h7, h2, h8, h9, h3⟩
    · rintro ⟨h5, h6, hm, h1, h7, h2, h8, h9, h3⟩
      refine ⟨⟨h1, h2, h3, ?_, h5, h6, h7, h8, h9, ?_⟩, hm⟩
      · unfold rangeNonempty
        unfold ssCandidate at h6
        exact ⟨le_trans (le_max_left _ _) (le_trans h6.1 (min_le_left _ _)),
          le_trans (le_max_left _ _) (le_trans h6.2 (min_le_left _ _))⟩
      · rcases h3 with h | h
        · exact Or.inl h
        · exact Or.inr (Or.inl h)
  · exact fun h => h.1

/-- C1, counterexample.  In the initialized two-segment problem, the pair
(0, 1) is a broadphase candidate, none of the claimed skip conditions holds
(both segments resolve, share no endpoint, lie on the same known layer, and
segment 1 has movable endpoints), yet the code skips the pair because both
endpoints of segment 0 are fixed: even under the freshly allocated all-zero
visited-mark state, where no mark can collide, the full guard sequence
rejects the pair, and no segment-segment force reaches the endpoints of
segment 1. -/
theorem segseg_skip_counterexample :
    ssCandidate (initState probTwoSegs) 0 1 ∧
    ¬ssSkipClaimed (initState probTwoSegs) 0 1 ∧
    ¬ssPairActive (initState probTwoSegs) 0 1 ∧
    ¬ssPairActiveMarked (initState probTwoSegs) freshMarks 0 1 ∧
    segSegF (initState probTwoSegs) 2 = (0, 0) ∧
    segSegF (initState probTwoSegs) 3 = (0, 0) := by
  have ha0 : (initState probTwoSegs).segA 0 = 0 := rfl
  have hb0 : (initState probTwoSegs).segB 0 = 1 := rfl
  have ha1 : (initState probTwoSegs).segA 1 = 2 := rfl
  have hb1 : (initState probTwoSegs).segB 1 = 3 := rfl
  have hL0 : (initState probTwoSegs).segLayerIdx 0 = 0 := rfl
  have hL1 : (initState probTwoSegs).segLayerIdx 1 = 0 := rfl
  have hmv0 : (initState probTwoSegs).movable 0 = false := rfl
  have hmv1 : (initState probTwoSegs).movable 1 = false := rfl
  have hmv2 : (initState probTwoSegs).movable 2 = true := rfl
  have hm2 : (initState probTwoSegs).m = 2 := rfl
  have hinv : (initState probTwoSegs).invCellSize = 1 := by
    norm_num [initState, probTwoSegs]
  have hinf : (initState probTwoSegs).globalInfluence = 1 := by
    norm_num [initState, probTwoSegs]
  have hr0 : segCellRange (initState probTwoSegs) 0 = (-1, 2, -1, 1) := by
    unfold segCellRange
    rw [ha0, hb0]
    rw [if_neg (by norm_num)]
    have hp0x : (initState probTwoSegs).px 0 = 0 := rfl
    have hp0y : (initState probTwoSegs).py 0 = 0 := rfl
    have hp1x : (initState probTwoSegs).px 1 = 1 := rfl
    have hp1y : (initState probTwoSegs).py 1 = 0 := rfl
    have hox : (initState probTwoSegs).gridOriginX = 0 := rfl
    have hoy : (initState probTwoSegs).gridOriginY = 0 := rfl
    simp only [Int.toNat_zero, Int.toNat_one, hp0x, hp0y, hp1x, hp1y, hox, hoy, hinv, hinf]
    norm_num
  have hr1 : segCellRange (initState probTwoSegs) 1 = (-1, 2, 0, 2) := by
    unfold segCellRange
    rw [ha1, hb1]
    rw [if_neg (by norm_num)]
    have hp2x : (initState probTwoSegs).px 2 = 0 := rfl
    have hp2y : (initState probTwoSegs).py 2 = 1 := rfl
    have hp3x : (initState probTwoSegs).px 3 = 1 := rfl
    have hp3y : (initState probTwoSegs).py 3 = 1 := rfl
    have hox : (initState probTwoSegs).gridOriginX = 0 := rfl
    have hoy : (initState probTwoSegs).gridOriginY = 0 := rfl
    have ht2 : ((2 : ℤ).toNat) = 2 := rfl
    have ht3 : ((3 : ℤ).toNat) = 3 := rfl
    simp only [ht2, ht3, hp2x, hp2y, hp3x, hp3y, hox, hoy, hinv, hinf]
    norm_num
  have hcand : ssCandidate (initState probTwoSegs) 0 1 := by
    unfold ssCandidate
    rw [hr0, hr1]
    norm_num
  have hnotactive : ¬ssPairActive (initState probTwoSegs) 0 1 := by
    rintro ⟨-, -, h3, -⟩
    rw [ha0, hb0] at h3
    rcases h3 with h | h
    · rw [show ((0 : ℤ).toNat) = 0 from rfl, hmv0] at h
      exact Bool.false_ne_true h
    · rw [show ((1 : ℤ).toNat) = 1 from rfl, hmv1] at h
      exact Bool.false_ne_true h
  have hnotskip : ¬ssSkipClaimed (initState probTwoSegs) 0 1 := by
    rintro (h | h | h | h | h)
    · rw [ha0, hb0] at h
      rcases h with h | h <;> norm_num at h
    · rw [ha1, hb1] at h
      rcases h with h | h <;> norm_num at h
    · rw [hL0, hL1] at h
      exact h rfl
    · unfold ssShareEndpoint at h
      rw [ha0, hb0, ha1, hb1] at h
      rcases h with h | h | h | h <;> norm_num at h
    · rw [ha1] at h
      have h3 := h.2.2.1
      rw [show ((2 : ℤ).toNat) = 2 from rfl, hmv2] at h3
      exact Bool.noConfusion h3
  have hlt : ∀ i j : ℕ, ¬i < j → ¬ssPairActive (initState probTwoSegs) i j :=
    fun i j h hact => h hact.2.2.2.2.1
  have hterm : ∀ p i j : ℕ, ¬ssPairActive (initState probTwoSegs) i j →
      ssPairTerm (initState probTwoSegs) i j p = (0, 0) := by
    intro p i j h
    unfold ssPairTerm
    rw [if_neg h]
  have hzero : ∀ p : ℕ, segSegF (initState probTwoSegs) p = (0, 0) := by
    intro p
    unfold segSegF
    rw [hm2]
    simp [Finset.sum_range_succ, Prod.mk_add_mk, hterm p 0 0 (hlt 0 0 (by omega)),
      hterm p 0 1 hnotactive, hterm p 1 0 (hlt 1 0 (by omega)),
      hterm p 1 1 (hlt 1 1 (by omega))]
  exact ⟨hcand, hnotskip, hnotactive, fun h => hnotactive h.1, hzero 2, hzero 3⟩

theorem ssPairTerm_zero_of_unresolved_left (s : SolverState) (k j p : ℕ)
    (h : s.segA k < 0 ∨ s.segB k < 0) : ssPairTerm s k j p = (0, 0) := by
  unfold ssPairTerm
  rw [if_neg]
  rintro ⟨⟨h1, h2⟩, -⟩
  rcases h with h | h
  · exact absurd h1 (not_le.mpr h)
  · exact absurd h2 (not_le.mpr h)

theorem ssPairTerm_zero_of_unresolved_right (s : SolverState) (i k p : ℕ)
    (h : s.segA k < 0 ∨ s.segB k < 0) : ssPairTerm s i k p = (0, 0) := by
  unfold ssPairTerm
  rw [if_neg]
  rintro ⟨-, -, -, -, -, -, ⟨h1, h2⟩, -⟩
  rcases h with h | h
  · exact absurd h1 (not_le.mpr h)
  · exact absurd h2 (not_le.mpr h)

theorem psTerm_zero_of_unresolved (s : SolverState) (q k p : ℕ)
    (h : s.segA k < 0 ∨ s.segB k < 0) : psTerm s q k p = (0, 0) := by
  unfold psTerm
  rw [if_neg]
  rintro ⟨-, ⟨h1, h2⟩, -⟩
  rcases h with h | h
  · exact absurd h1 (not_le.mpr h)
  · exact absurd h2 (not_le.mpr h)

theorem flTerm_zero_of_unresolved (s : SolverState) (k p : ℕ)
    (h : s.segA k < 0 ∨ s.segB k < 0) : flTerm s k p = (0, 0) := by
  unfold flTerm
  rw [if_neg]
  rintro ⟨-, ⟨h1, h2⟩, -⟩
  rcases h with h | h
  · exact absurd h1 (not_le.mpr h)
  · exact absurd h2 (not_le.mpr h)

theorem foTerm_zero_of_unresolved (s : SolverState) (k p : ℕ)
    (h : s.segA k < 0 ∨ s.segB k < 0) : foTerm s k p = (0, 0) := by
  unfold foTerm
  rw [if_neg]
  rintro ⟨-, ⟨h1, h2⟩, -⟩
  rcases h with h | h
  · exact absurd h1 (not_le.mpr h)
  · exact absurd h2 (not_le.mpr h)

/-- C8.  A segment whose start point id or end point id matches no point id
of the problem is inert after initialization: its stored endpoint index is
the sentinel minus one, its grid cell range is the empty range (so it enters
no grid cell), and its guarded contribution in the segment-segment kernel
(on either side of a pair), the point-segment kernel, the fixed-length
kernel and the fixed-orientation kernel to every point is zero.  The step
body is a total function, so the step returns normally. -/
theorem inert_segment_no_force (prob : Problem) (k : ℕ)
    (hbad : (∀ q ∈ prob.points, q.pointId ≠ (prob.segments.getD k defaultSegment).startPointId) ∨
      (∀ q ∈ prob.points, q.pointId ≠ (prob.segments.getD k defaultSegment).endPointId)) :
    ((initState prob).segA k < 0 ∨ (initState prob).segB k < 0) ∧
    segCellRange (initState prob) k = (0, -1, 0, -1) ∧
    (∀ j p, ssPairTerm (initState prob) k j p = (0, 0)) ∧
    (∀ i p, ssPairTerm (initState prob) i k p = (0, 0)) ∧
    (∀ q p, psTerm (initState prob) q k p = (0, 0)) ∧
    (∀ p, flTerm (initState prob) k p = (0, 0)) ∧
    (∀ p, foTerm (initState prob) k p = (0, 0)) := by
  have hA : (initState prob).segA k =
      lastIndexOf (prob.points.map (fun q => q.pointId))
        ((prob.segments.getD k defaultSegment).startPointId) := rfl
  have hB : (initState prob).segB k =
      lastIndexOf (prob.points.map (fun q => q.pointId))
        ((prob.segments.getD k defaultSegment).endPointId) := rfl
  have hun : (initState prob).segA k < 0 ∨ (initState prob).segB k < 0 := by
    rcases hbad with hbad | hbad
    · left
      rw [hA, lastIndexOf_neg_iff]
      rw [List.mem_map]
      rintro ⟨q, hq, hqe⟩
      exact hbad q hq hqe
    · right
      rw [hB, lastIndexOf_neg_iff]
      rw [List.mem_map]
      rintro ⟨q, hq, hqe⟩
      exact hbad q hq hqe
  refine ⟨hun, ?_, ?_, ?_, ?_, ?_, ?_⟩
  · unfold segCellRange
    rw [if_pos hun]
  · exact fun j p => ssPairTerm_zero_of_unresolved_left _ k j p hun
  · exact fun i p => ssPairTerm_zero_of_unresolved_right _ i k p hun
  · exact fun q p => psTerm_zero_of_unresolved _ q k p hun
  · exact fun p => flTerm_zero_of_unresolved _ k p hun
  · exact fun p => foTerm_zero_of_unresolved _ k p hun

/-- C8, witness: the problem whose single segment references the missing
point id nope. -/
theorem inert_segment_no_force_witness :
    ((∀ q ∈ probDangling.points,
        q.pointId ≠ (probDangling.segments.getD 0 defaultSegment).endPointId)) ∧
    (((initState probDangling).segA 0 < 0 ∨ (initState probDangling).segB 0 < 0) ∧
      segCellRange (initState probDangling) 0 = (0, -1, 0, -1) ∧
      (∀ j p, ssPairTerm (initState probDangling) 0 j p = (0, 0)) ∧
      (∀ i p, ssPairTerm (initState probDangling) i 0 p = (0, 0)) ∧
      (∀ q p, psTerm (initState probDangling) q 0 p = (0, 0)) ∧
      (∀ p, flTerm (initState probDangling) 0 p = (0, 0)) ∧
      (∀ p, foTerm (initState probDangling) 0 p = (0, 0))) := by
  have hids : ∀ q ∈ probDangling.points,
      q.pointId ≠ (probDangling.segments.getD 0 defaultSegment).endPointId := by
    intro q hq
    rcases List.mem_singleton.mp hq with rfl
    intro h
    simp [probDangling, defaultSegment] at h
  exact ⟨hids, inert_segment_no_force probDangling 0 (Or.inr hids)⟩

/-- C10.  A segment whose stored layer index is the sentinel minus one (its
layer id is absent from layerIds) exchanges no repulsion force: its guarded
contribution in the segment-segment kernel is zero on either side of any
pair (its own layer guard fails, and against a known layer the equality
guard fails), and its point-segment contribution is zero for every point
(the layer test returns false); but the fixed-length and fixed-orientation
kernels read no layer data at all: overwriting the layer index of the
segment changes neither of their contributions. -/
theorem unknown_layer_segment (s : SolverState) (k : ℕ) (hL : s.segLayerIdx k < 0) :
    (∀ j p, ssPairTerm s k j p = (0, 0)) ∧
    (∀ i p, ssPairTerm s i k p = (0, 0)) ∧
    (∀ q p, psTerm s q k p = (0, 0)) ∧
    (∀ v : ℤ, ∀ i p, flTerm (setSegLayerIdx s k v) i p = flTerm s i p) ∧
    (∀ v : ℤ, ∀ i p, foTerm (setSegLayerIdx s k v) i p = foTerm s i p) := by
  refine ⟨?_, ?_, ?_, fun v i p => rfl, fun v i p => rfl⟩
  · intro j p
    unfold ssPairTerm
    rw [if_neg]
    rintro ⟨-, h2, -⟩
    exact absurd h2 (not_le.mpr hL)
  · intro i p
    unfold ssPairTerm
    rw [if_neg]
    rintro ⟨-, h2, -, -, -, -, -, h8, -⟩
    rw [← h8] at h2
    exact absurd h2 (not_le.mpr hL)
  · intro q p
    unfold psTerm
    rw [if_neg]
    rintro ⟨-, -, -, h4, -⟩
    unfold pointOnLayer at h4
    rw [if_pos hL] at h4
    exact Bool.noConfusion h4

/-- C10, witness: the problem whose single segment lies on the unknown layer
id X while both endpoints resolve and one is movable. -/
theorem unknown_layer_segment_witness :
    (initState probUnknownLayer).segLayerIdx 0 < 0 ∧
    ((∀ j p, ssPairTerm (initState probUnknownLayer) 0 j p = (0, 0)) ∧
      (∀ i p, ssPairTerm (initState probUnknownLayer) i 0 p = (0, 0)) ∧
      (∀ q p, psTerm (initState probUnknownLayer) q 0 p = (0, 0)) ∧
      (∀ v : ℤ, ∀ i p,
        flTerm (setSegLayerIdx (initState probUnknownLayer) 0 v) i p =
          flTerm (initState probUnknownLayer) i p) ∧
      (∀ v : ℤ, ∀ i p,
        foTerm (setSegLayerIdx (initState probUnknownLayer) 0 v) i p =
          foTerm (initState probUnknownLayer) i p)) := by
  have hL : (initState probUnknownLayer).segLayerIdx 0 < 0 := by
    rw [show (initState probUnknownLayer).segLayerIdx 0 = -1 from rfl]
    norm_num
  exact ⟨hL, unknown_layer_segment _ 0 hL⟩

theorem repulsionMagnitude_zero (gap decay om : ℝ) :
    repulsionMagnitude gap 0 decay om = 0 := by
  unfold repulsionMagnitude
  dsimp only
  split <;> ring

theorem ssPairForce_zero (s : SolverState)
    (h : s.prob.interactions.segSegRepel.strength = 0) (i j p : ℕ) :
    ssPairForce s i j p = (0, 0) := by
  unfold ssPairForce
  simp [h, repulsionMagnitude_zero]

theorem psForce_zero (s : SolverState)
    (h : s.prob.interactions.pointSegRepel.strength = 0) (q si p : ℕ) :
    psForce s q si p = (0, 0) := by
  unfold psForce
  simp [h, repulsionMagnitude_zero]

theorem boundsF_zero (s : SolverState)
    (h : s.prob.interactions.boundsKeepIn.strength = 0) (p : ℕ) :
    boundsF s p = (0, 0) := by
  unfold boundsF
  split
  · simp [h]
  · rfl

theorem flTerm_zero_strength (s : SolverState)
    (h : s.prob.interactions.fixedLengthCorrection.strength = 0) (i p : ℕ) :
    flTerm s i p = (0, 0) := by
  unfold flTerm
  split
  · simp [h]
  · rfl

theorem foTerm_zero_strength (s : SolverState)
    (h : s.prob.interactions.fixedOrientationCorrection.strength = 0) (i p : ℕ) :
    foTerm s i p = (0, 0) := by
  unfold foTerm
  split
  · simp [h]
  · rfl

theorem totalForce_zero (s : SolverState) (hz : allStrengthsZero s.prob) (p : ℕ) :
    totalForce s p = 0 := by
  obtain ⟨h1, h2, h3, h4, h5⟩ := hz
  have hss : segSegF s p = 0 := by
    unfold segSegF
    refine Finset.sum_eq_zero fun i _ => Finset.sum_eq_zero fun j _ => ?_
    unfold ssPairTerm
    split
    · exact ssPairForce_zero s h1 i j p
    · rfl
  have hps : pointSegF s p = 0 := by
    unfold pointSegF
    refine Finset.sum_eq_zero fun q _ => Finset.sum_eq_zero fun si _ => ?_
    unfold psTerm
    split
    · exact psForce_zero s h2 q si p
    · rfl
  have hb : boundsF s p = 0 := boundsF_zero s h3 p
  have hfl : fixedLenF s p = 0 := by
    unfold fixedLenF
    exact Finset.sum_eq_zero fun i _ => flTerm_zero_strength s h4 i p
  have hfo : fixedOriF s p = 0 := by
    unfold fixedOriF
    exact Finset.sum_eq_zero fun i _ => foTerm_zero_strength s h5 i p
  unfold totalForce
  rw [hss, hps, hb, hfl, hfo]
  simp

theorem velAfter_zero (s : SolverState) (hz : allStrengthsZero s.prob)
    (hv : ∀ i, s.vx i = 0 ∧ s.vy i = 0) (i : ℕ) :
    velAfter s i = (0, 0) ∧ ¬movedProp s i := by
  have hsf : scaledForce s i = (0, 0) := by
    unfold scaledForce
    rw [totalForce_zero s hz i]
    simp
  have hvp : velPre s i = (0, 0) := by
    unfold velPre
    rw [(hv i).1, (hv i).2]
    have h1 : (scaledForce s i).1 = 0 := by rw [hsf]
    have h2 : (scaledForce s i).2 = 0 := by rw [hsf]
    rw [h1, h2]
    norm_num
  have hm2 : moveM2 s i = 0 := by
    unfold moveM2
    rw [hvp]
    norm_num
  have hsmall : moveM2 s i ≤ EPS := by
    rw [hm2]
    exact le_of_lt EPS_pos
  constructor
  · unfold velAfter
    rw [if_pos hsmall]
  · unfold movedProp
    exact not_not.mpr hsmall

theorem stepBody_preserves_frozen (s : SolverState) (hz : allStrengthsZero s.prob)
    (hv : ∀ i, s.vx i = 0 ∧ s.vy i = 0) :
    (stepBody s).px = s.px ∧ (stepBody s).py = s.py ∧
    (stepBody s).extX = s.extX ∧ (stepBody s).extY = s.extY ∧
    (∀ i, (stepBody s).vx i = 0 ∧ (stepBody s).vy i = 0) ∧
    (stepBody s).prob = s.prob := by
  by_cases hs : s.solved = true
  · have h1 : stepBody s = s := by simp [stepBody, hs]
    rw [h1]
    exact ⟨rfl, rfl, rfl, rfl, hv, rfl⟩
  · have hs' : s.solved = false := solved_false_of_ne _ hs
    have hva : ∀ i, velAfter s i = (0, 0) ∧ ¬movedProp s i := velAfter_zero s hz hv
    refine ⟨?_, ?_, ?_, ?_, ?_, ?_⟩
    · funext i
      simp only [stepBody, hs']
      by_cases hc : i < s.n ∧ s.movable i = true
      · simp [hc, (hva i).1]
      · simp [hc]
    · funext i
      simp only [stepBody, hs']
      by_cases hc : i < s.n ∧ s.movable i = true
      · simp [hc, (hva i).1]
      · simp [hc]
    · funext i
      simp only [stepBody, hs']
      simp [(hva i).2]
    · funext i
      simp only [stepBody, hs']
      simp [(hva i).2]
    · intro i
      simp only [stepBody, hs']
      by_cases hc : i < s.n ∧ s.movable i = true
      · constructor <;> simp [hc, (hva i).1]
      · constructor <;> simp [hc, (hv i).1, (hv i).2]
    · simp [stepBody, hs']

theorem step_preserves_frozen (s : SolverState) (hz : allStrengthsZero s.prob)
    (hv : ∀ i, s.vx i = 0 ∧ s.vy i = 0) :
    (step s).px = s.px ∧ (step s).py = s.py ∧
    (step s).extX = s.extX ∧ (step s).extY = s.extY ∧
    (∀ i, (step s).vx i = 0 ∧ (step s).vy i = 0) ∧
    (step s).prob = s.prob := by
  unfold step
  by_cases hs : s.solved = true
  · rw [if_pos hs]
    exact ⟨rfl, rfl, rfl, rfl, hv, rfl⟩
  · rw [if_neg hs]
    exact stepBody_preserves_frozen { s with iterations := s.iterations + 1 } hz hv

/-- C6.  When all five interaction strengths are zero, then for every number
of public step calls (hence for every maxSteps) every internal and external
point position is exactly the initial one, every velocity is zero after
every step, and the assembled force on every point is zero at every reached
state. -/
theorem zero_strengths_frozen (prob : Problem) (hz : allStrengthsZero prob) :
    ∀ k : ℕ,
      (step^[k] (initState prob)).px = (initState prob).px ∧
      (step^[k] (initState prob)).py = (initState prob).py ∧
      (step^[k] (initState prob)).extX = (initState prob).extX ∧
      (step^[k] (initState prob)).extY = (initState prob).extY ∧
      (∀ i, (step^[k] (initState prob)).vx i = 0 ∧ (step^[k] (initState prob)).vy i = 0) ∧
      (∀ p, totalForce (step^[k] (initState prob)) p = 0) := by
  have main : ∀ k : ℕ,
      (step^[k] (initState prob)).px = (initState prob).px ∧
      (step^[k] (initState prob)).py = (initState prob).py ∧
      (step^[k] (initState prob)).extX = (initState prob).extX ∧
      (step^[k] (initState prob)).extY = (initState prob).extY ∧
      (∀ i, (step^[k] (initState prob)).vx i = 0 ∧ (step^[k] (initState prob)).vy i = 0) ∧
      (step^[k] (initState prob)).prob = prob := by
    intro k
    induction k with
    | zero => exact ⟨rfl, rfl, rfl, rfl, fun i => ⟨rfl, rfl⟩, rfl⟩
    | succ k ih =>
      obtain ⟨hpx, hpy, hex, hey, hvel, hpr⟩ := ih
      have hz' : allStrengthsZero (step^[k] (initState prob)).prob := by
        rw [hpr]
        exact hz
      have hstep := step_preserves_frozen (step^[k] (initState prob)) hz' hvel
      rw [Function.iterate_succ_apply']
      exact ⟨hstep.1.trans hpx, hstep.2.1.trans hpy, hstep.2.2.1.trans hex,
        hstep.2.2.2.1.trans hey, hstep.2.2.2.2.1,
        hstep.2.2.2.2.2.trans hpr⟩
  intro k
  obtain ⟨hpx, hpy, hex, hey, hvel, hpr⟩ := main k
  refine ⟨hpx, hpy, hex, hey, hvel, fun p => ?_⟩
  apply totalForce_zero
  rw [hpr]
  exact hz

/-- C6, witness: the one-point problem with every strength zero, after three
steps. -/
theorem zero_strengths_frozen_witness :
    allStrengthsZero (probOnePoint none 0) ∧
    ((step^[3] (initState (probOnePoint none 0))).px = (initState (probOnePoint none 0)).px ∧
      (step^[3] (initState (probOnePoint none 0))).py = (initState (probOnePoint none 0)).py ∧
      (step^[3] (initState (probOnePoint none 0))).extX = (initState (probOnePoint none 0)).extX ∧
      (step^[3] (initState (probOnePoint none 0))).extY = (initState (probOnePoint none 0)).extY ∧
      (∀ i, (step^[3] (initState (probOnePoint none 0))).vx i = 0 ∧
        (step^[3] (initState (probOnePoint none 0))).vy i = 0) ∧
      (∀ p, totalForce (step^[3] (initState (probOnePoint none 0))) p = 0)) :=
  ⟨⟨rfl, rfl, rfl, rfl, rfl⟩, zero_strengths_frozen _ ⟨rfl, rfl, rfl, rfl, rfl⟩ 3⟩

end FastForce
